import Mathlib

/-!
Verification development for the xtrc code-navigation service.

This file gives a shallow embedding, in Lean, of the pure core of the
repository (tokenizer, route/intent extraction, hybrid scorer, ranking
heuristics, chunk builder, metadata/vector store operations, local and
LLM rerankers, query engine, incremental indexer) and proves or refutes
the frozen specification claims about it.

Modelling conventions:
- Python floats are idealised as rationals (ℚ); the score pipeline only
  adds, multiplies and compares, so the real-number semantics is exact.
- Python lists/sets become Lean lists; `sorted(set(xs))` becomes
  `sortStrings xs.dedup` (both denote the unique ascending duplicate-free
  enumeration of the same set of strings).
- Python `list.sort` / `sorted` are stable; `List.insertionSort` with the
  corresponding (total, transitive) relation is the same stable sort.
- External collaborators (embedding model, cross-encoder, LLM client,
  filesystem walk, clock) are passed in as explicit oracle values exactly
  where the source injects them as constructor arguments or performs I/O.
- Strings are treated at ASCII granularity (all inputs in the claims are
  ASCII); regex scanners are hand-compiled to character-list functions
  with the same leftmost-match-with-backtracking semantics.
-/

/-- ASCII letter, as in the regex class [A-Za-z]. -/
def isAsciiAlpha (c : Char) : Bool :=
  (decide ('a' ≤ c) && decide (c ≤ 'z')) || (decide ('A' ≤ c) && decide (c ≤ 'Z'))

/-- ASCII digit, as in the regex class [0-9] (ASCII fragment of \d). -/
def isAsciiDigit (c : Char) : Bool :=
  decide ('0' ≤ c) && decide (c ≤ '9')

/-- First character of an identifier token: [A-Za-z_]. -/
def isIdentStart (c : Char) : Bool :=
  isAsciiAlpha c || c = '_'

/-- Later character of an identifier token: [A-Za-z0-9_]. -/
def isIdentChar (c : Char) : Bool :=
  isAsciiAlpha c || isAsciiDigit c || c = '_'

/-- Whitespace, as matched by the regex class \s (ASCII fragment). -/
def isSpaceChar (c : Char) : Bool :=
  c = ' ' || c = '\t' || c = '\n' || c = '\r' || c = '\x0b' || c = '\x0c'

/-- Lowercase an ASCII letter, the ASCII fragment of Python str.lower. -/
def asciiLower (c : Char) : Char :=
  if isAsciiAlpha c && decide ('A' ≤ c) && decide (c ≤ 'Z') then
    Char.ofNat (c.toNat + 32)
  else c

/-- Lowercase a string character by character (Python str.lower on ASCII). -/
def lowerStr (s : String) : String :=
  String.mk (s.data.map asciiLower)

/-- Lexicographic code-point comparison of character lists, the order
Python uses to compare strings. -/
def charListLe : List Char → List Char → Bool
  | [], _ => true
  | _ :: _, [] => false
  | a :: as, b :: bs => if a = b then charListLe as bs else decide (a < b)

/-- Python string ≤ (lexicographic by code point). -/
def strLe (a b : String) : Bool :=
  charListLe a.data b.data

/-- Stable ascending sort of strings, the meaning of Python sorted(...)
on a list of strings. -/
def sortStrings (l : List String) : List String :=
  List.insertionSort (fun a b => strLe a b = true) l

/-- Python sorted(set(xs)): the ascending duplicate-free enumeration of
the set of elements of xs. -/
def sortedSet (l : List String) : List String :=
  sortStrings l.dedup

/-- Does the needle occur at the head of the haystack? (helper for
substring search). -/
def matchesAt : List Char → List Char → Bool
  | [], _ => true
  | _ :: _, [] => false
  | a :: as, b :: bs => a = b && matchesAt as bs

/-- Does the needle occur anywhere in the haystack? (Python `in` on
strings). -/
def hasSub (needle : List Char) : List Char → Bool
  | [] => matchesAt needle []
  | b :: bs => matchesAt needle (b :: bs) || hasSub needle bs

/-- Python `needle in hay` for strings. -/
def strContains (hay needle : String) : Bool :=
  hasSub needle.data hay.data

/-- Python str.strip() on ASCII whitespace. -/
def pyStrip (s : String) : String :=
  String.mk (((s.data.dropWhile (isSpaceChar ·)).reverse.dropWhile (isSpaceChar ·)).reverse)

/-! ## Tokenizer (src/xtrc/core/tokenizer.py)

`estimate_tokens` counts matches of the regex
`[A-Za-z_][A-Za-z0-9_]*|\d+|\S`; `normalize_terms` lowercases and
collects `[A-Za-z_][A-Za-z0-9_]*` tokens of length > 1. Both regex
scans are non-overlapping leftmost maximal-munch scans, compiled here
to structural recursion on the character list. -/

/-- One scan of the `estimate_tokens` regex, structurally recursive on a
fuel argument (one unit of fuel per character consumed, so fuel =
length of the list is always enough). -/
def countTokensF : Nat → List Char → Nat
  | 0, _ => 0
  | _ + 1, [] => 0
  | fuel + 1, c :: cs =>
    if isIdentStart c then
      1 + countTokensF fuel (cs.dropWhile (isIdentChar ·))
    else if isAsciiDigit c then
      1 + countTokensF fuel (cs.dropWhile (isAsciiDigit ·))
    else if isSpaceChar c then
      countTokensF fuel cs
    else
      1 + countTokensF fuel cs

/-- estimate_tokens(text): number of regex token matches. -/
def estimate_tokens (text : String) : Nat :=
  countTokensF text.data.length text.data

/-- Scan for identifier tokens `[A-Za-z_][A-Za-z0-9_]*` (the
`re.findall` in normalize_terms, applied after lowercasing); fueled as
in `countTokensF`. -/
def identTokensF : Nat → List Char → List (List Char)
  | 0, _ => []
  | _ + 1, [] => []
  | fuel + 1, c :: cs =>
    if isIdentStart c then
      (c :: cs.takeWhile (isIdentChar ·)) :: identTokensF fuel (cs.dropWhile (isIdentChar ·))
    else
      identTokensF fuel cs

/-- The identifier tokens of a character list. -/
def identTokens (l : List Char) : List (List Char) :=
  identTokensF l.length l

/-- normalize_terms(text): lowercase, extract identifier tokens, drop
tokens of length ≤ 1. Order is input order; duplicates kept. -/
def normalize_terms (text : String) : List String :=
  ((identTokens (text.data.map asciiLower)).filter (fun t => t.length > 1)).map
    (fun t => String.mk t)

example : normalize_terms "get user score" = ["get", "user", "score"] := by decide!
example : estimate_tokens "def f0():\n    return 0" = 7 := by decide!
example : normalize_terms "a.js\nhello" = ["js", "hello"] := by decide!

/-! ## Route and intent signals (src/xtrc/core/route_signals.py)

The three regexes (_JS_ROUTE_RE, _PY_DECORATOR_ROUTE_RE,
_GENERIC_METHOD_RE) are compiled to leftmost-match scanners with the
same backtracking order as the Python regex engine. -/

/-- Uppercase an ASCII letter (Python str.upper on ASCII). -/
def asciiUpper (c : Char) : Char :=
  if isAsciiAlpha c && decide ('a' ≤ c) && decide ('z' ≥ c) then
    Char.ofNat (c.toNat - 32)
  else c

/-- Uppercase a string (Python str.upper on ASCII). -/
def upperStr (s : String) : String :=
  String.mk (s.data.map asciiUpper)

/-- HTTP_INTENT_MAP: method → CRUD intent. -/
def HTTP_INTENT_MAP (m : String) : Option String :=
  if m = "post" then some "create"
  else if m = "put" then some "update"
  else if m = "patch" then some "update"
  else if m = "delete" then some "delete"
  else if m = "get" then some "read"
  else none

/-- The five HTTP method words, in the alternation order of the regexes
(get|post|put|delete|patch). -/
def httpMethodWords : List String := ["get", "post", "put", "delete", "patch"]

/-- Case-insensitive literal match of a word at the head of the input;
returns the rest of the input on success. -/
def stripCI (word : List Char) (cs : List Char) : Option (List Char) :=
  match word, cs with
  | [], rest => some rest
  | _ :: _, [] => none
  | w :: ws, c :: rest => if asciiLower c = asciiLower w then stripCI ws rest else none

/-- Try the method alternation at the head of the input (first matching
alternative wins; no word is a prefix of another, so this is the regex
alternation semantics). -/
def matchMethodAlt (cs : List Char) : Option (String × List Char) :=
  (httpMethodWords.filterMap (fun w =>
    (stripCI w.data cs).map (fun rest => (w, rest)))).head?

/-- Shared tail of the two route regexes: `\s*\(\s*['"]([^'"]+)['"]`;
returns the captured path. -/
def matchCallPath (cs : List Char) : Option String :=
  match cs.dropWhile (isSpaceChar ·) with
  | '(' :: r1 =>
    match r1.dropWhile (isSpaceChar ·) with
    | q :: r2 =>
      if q = '\'' || q = '"' then
        let path := r2.takeWhile (fun c => !(c = '\'' || c = '"'))
        let r3 := r2.dropWhile (fun c => !(c = '\'' || c = '"'))
        if path.isEmpty then none
        else if r3.isEmpty then none
        else some (String.mk path)
      else none
    | [] => none
  | _ => none

/-- Try `\.\s*(method)\s*\(\s*['"]([^'"]+)['"]` at the current
position. -/
def jsRouteAt (cs : List Char) : Option (String × String) :=
  match cs with
  | '.' :: rest =>
    match matchMethodAlt (rest.dropWhile (isSpaceChar ·)) with
    | some (m, r1) => (matchCallPath r1).map (fun p => (m, p))
    | none => none
  | _ => none

/-- Leftmost search for the JS route pattern (_JS_ROUTE_RE). -/
def jsRouteSearch : List Char → Option (String × String)
  | [] => none
  | c :: cs =>
    match jsRouteAt (c :: cs) with
    | some r => some r
    | none => jsRouteSearch cs

/-- The suffix of the decorator regex after the identifier class:
`(?:router|app)?\.?\s*(method)\s*\(\s*['"]([^'"]+)['"]`, tried in the
regex backtracking order (router, then app, then neither; with a dot,
then without). -/
def pyDecoTail (cs : List Char) : Option (String × String) :=
  let afterOpt : List (List Char) :=
    (match stripCI "router".data cs with | some r => [r] | none => []) ++
    (match stripCI "app".data cs with | some r => [r] | none => []) ++
    [cs]
  let withDot : List (List Char) :=
    afterOpt.flatMap (fun r =>
      (match r with | '.' :: r2 => [r2] | _ => []) ++ [r])
  (withDot.filterMap (fun r =>
    match matchMethodAlt (r.dropWhile (isSpaceChar ·)) with
    | some (m, r1) => (matchCallPath r1).map (fun p => (m, p))
    | none => none)).head?

/-- Longest-first backtracking over the greedy class
`[A-Za-z0-9_\.]*`: `revRun` is the reversed still-consumed part of the
class run, `after` the input following it. -/
def pyClassBacktrack : List Char → List Char → Option (String × String)
  | revRun, after =>
    match pyDecoTail after with
    | some r => some r
    | none =>
      match revRun with
      | [] => none
      | c :: rest => pyClassBacktrack rest (c :: after)

/-- Try `@[A-Za-z_][A-Za-z0-9_\.]*(?:router|app)?\.?\s*(method)...` at
the current position. -/
def pyRouteAt (cs : List Char) : Option (String × String) :=
  match cs with
  | '@' :: c :: rest =>
    if isIdentStart c then
      let run := rest.takeWhile (fun ch => isIdentChar ch || ch = '.')
      pyClassBacktrack run.reverse (rest.drop run.length)
    else none
  | _ => none

/-- Leftmost search for the decorator route pattern
(_PY_DECORATOR_ROUTE_RE). -/
def pyRouteSearch : List Char → Option (String × String)
  | [] => none
  | c :: cs =>
    match pyRouteAt (c :: cs) with
    | some r => some r
    | none => pyRouteSearch cs

/-- Word character, the regex class \w (ASCII fragment). -/
def isWordChar (c : Char) : Bool := isIdentChar c

/-- Try `\b(method)\b` at the current position, `prev` being the
preceding character (none at the start of the input). -/
def genericMethodAt (prev : Option Char) (cs : List Char) : Option String :=
  let leftBoundary := match prev with
    | none => true
    | some p => !isWordChar p
  if leftBoundary then
    (httpMethodWords.filterMap (fun w =>
      match stripCI w.data cs with
      | some rest =>
        if rest.head?.elim true (fun c => !isWordChar c) then some w else none
      | none => none)).head?
  else none

/-- Leftmost search for a bare method token (_GENERIC_METHOD_RE). -/
def genericMethodSearch (prev : Option Char) : List Char → Option String
  | [] =>
    match genericMethodAt prev [] with
    | some r => some r
    | none => none
  | c :: cs =>
    match genericMethodAt prev (c :: cs) with
    | some r => some r
    | none => genericMethodSearch (some c) cs

/-- _singularize. -/
def singularize (value : String) : String :=
  if value.endsWith "ies" && value.length > 4 then
    String.mk (value.data.take (value.length - 3)) ++ "y"
  else if value.endsWith "s" && !value.endsWith "ss" && value.length > 3 then
    String.mk (value.data.take (value.length - 1))
  else value

/-- Split a character list on a slash (Python str.split("/")). -/
def splitOnSlash (l : List Char) : List (List Char) :=
  l.foldr
    (fun c acc =>
      if c = '/' then [] :: acc
      else
        match acc with
        | a :: as => (c :: a) :: as
        | [] => [[c]])
    [[]]

/-- Python str.strip("/"). -/
def stripSlashes (l : List Char) : List Char :=
  ((l.dropWhile (· = '/')).reverse.dropWhile (· = '/')).reverse

/-- _path_segments: strip, drop an http(s) scheme and host, split on
slashes, skip empty, `:`-prefixed and `{}`-wrapped segments. -/
def path_segments (path : String) : List String :=
  let normalized := pyStrip path
  let normalized :=
    if normalized.startsWith "http://" || normalized.startsWith "https://" then
      let afterScheme := String.mk ((hasSubSplit normalized.data).getD normalized.data)
      afterScheme
    else normalized
  (((splitOnSlash (stripSlashes normalized.data)).map stripSegment).filterMap id)
where
  /-- After `//`, keep from the first `/` of the remainder (or nothing). -/
  hasSubSplit (l : List Char) : Option (List Char) :=
    match l with
    | [] => none
    | '/' :: '/' :: rest => some (rest.dropWhile (· ≠ '/'))
    | _ :: rest => hasSubSplit rest
  stripSegment (seg : List Char) : Option String :=
    if seg.isEmpty then none
    else if seg.head? = some ':' then none
    else if seg.head? = some '{' && seg.getLast? = some '}' then none
    else some (String.mk seg)

/-- _extract_resource: singularized first token of the first retained
path segment. -/
def extract_resource (path : Option String) : Option String :=
  match path with
  | none => none
  | some p =>
    if p = "" then none
    else
      match path_segments p with
      | [] => none
      | candidate :: _ =>
        match normalize_terms candidate with
        | [] => none
        | tok :: _ => some (singularize tok)

/-- _resource_from_symbol: singularized first non-verb token of the
symbol name. -/
def resource_from_symbol (symbol_name : Option String) : Option String :=
  match symbol_name with
  | none => none
  | some s =>
    if s = "" then none
    else
      match normalize_terms s with
      | [] => none
      | toks =>
        (toks.filter (fun token =>
          !(["create", "update", "delete", "get", "post", "put", "patch"].contains token))).head?.map
          singularize

/-- RouteSignal (route_signals.py). -/
structure RouteSignal where
  method : String
  intent : String
  resource : Option String
  path : Option String
  structural_terms : List String
deriving DecidableEq

/-- QuerySignal (route_signals.py). -/
structure QuerySignal where
  intents : List String
  methods : List String
  structural_terms : List String
deriving DecidableEq

/-- extract_route_signal(text, symbol_name): JS call pattern first, then
decorator pattern, then a bare method token; derive intent, resource and
structural terms. -/
def extract_route_signal (text : String) (symbol_name : Option String := none) :
    Option RouteSignal :=
  let jsOrPy : Option (String × Option String) :=
    match jsRouteSearch text.data with
    | some (m, p) => some (m, some p)
    | none =>
      match pyRouteSearch text.data with
      | some (m, p) => some (m, some p)
      | none =>
        match genericMethodSearch none text.data with
        | some m => some (m, none)
        | none => none
  match jsOrPy with
  | none => none
  | some (method, path) =>
    match HTTP_INTENT_MAP method with
    | none => none
    | some intent =>
      let resource :=
        match path with
        | some p => if p ≠ "" then extract_resource (some p) else resource_from_symbol symbol_name
        | none => resource_from_symbol symbol_name
      let pathTerms :=
        match path with
        | some p => (path_segments p).flatMap (fun seg => normalize_terms seg)
        | none => []
      let resourceTerms := match resource with | some r => [r] | none => []
      let symbolTerms :=
        match symbol_name with
        | some s => normalize_terms s
        | none => []
      some
        { method := upperStr method
          intent := intent
          resource := resource
          path := path
          structural_terms := sortedSet ([method, intent] ++ pathTerms ++ resourceTerms ++ symbolTerms) }

/-- _INTENT_ALIASES, in dict insertion order. -/
def INTENT_ALIASES : List (String × List String) :=
  [("create", ["create", "add", "new", "insert", "post", "register", "submit"]),
   ("update", ["update", "edit", "modify", "put", "patch", "change"]),
   ("delete", ["delete", "remove", "destroy", "drop"]),
   ("read", ["read", "get", "fetch", "find", "list", "show", "retrieve"])]

/-- _STOP_TERMS. -/
def STOP_TERMS : List String :=
  ["the", "this", "that", "with", "from", "into", "where", "when", "which",
   "what", "does", "should", "route", "endpoint", "http", "api", "resource"]

/-- infer_query_signal(query): HTTP-verb terms, alias/verb-derived
intents, and structural terms (all terms minus stop words, plus methods
and intents), each as a sorted set. -/
def infer_query_signal (query : String) : QuerySignal :=
  let terms := normalize_terms query
  let methods := terms.filter (fun t => (HTTP_INTENT_MAP t).isSome)
  let aliasIntents :=
    INTENT_ALIASES.filterMap (fun p =>
      if terms.any (fun t => p.2.contains t) then some p.1 else none)
  let methodIntents := methods.filterMap (fun m => HTTP_INTENT_MAP m)
  let intents := aliasIntents ++ methodIntents
  let structural := (terms.filter (fun t => !STOP_TERMS.contains t)) ++ methods ++ intents
  { intents := sortedSet intents
    methods := sortedSet methods
    structural_terms := sortedSet structural }

/-! ## Intent metadata (src/xtrc/indexer/intent.py) -/

/-- _NOISE_PATH_HINTS. -/
def NOISE_PATH_HINTS : List String :=
  ["seed", "seeds", "migration", "migrations", "fixture", "fixtures", "dummy",
   "mock", "test", "tests", "spec", "script", "scripts"]

/-- _LOGGING_HINTS. -/
def LOGGING_HINTS : List String := ["log", "logger", "logging", "audit", "trace"]

/-- _ANALYTICS_HINTS. -/
def ANALYTICS_HINTS : List String :=
  ["analytics", "metric", "metrics", "telemetry", "tracking", "event"]

/-- _CREATE_HINTS. -/
def CREATE_HINTS : List String := ["create", "insert", "add", "register", "new", "post"]

/-- _UPDATE_HINTS. -/
def UPDATE_HINTS : List String := ["update", "modify", "edit", "patch", "put", "upsert"]

/-- _DELETE_HINTS. -/
def DELETE_HINTS : List String := ["delete", "remove", "destroy", "drop"]

/-- _READ_HINTS. -/
def READ_HINTS : List String := ["get", "fetch", "read", "list", "find", "retrieve", "query"]

/-- _has_any(value, candidates): some candidate is a substring of the
lowercased value. -/
def has_any (value : String) (candidates : List String) : Bool :=
  candidates.any (fun c => strContains (lowerStr value) c)

/-- _has_any_set(values, candidates): the two term sets intersect. -/
def has_any_set (values : List String) (candidates : List String) : Bool :=
  values.any (fun v => candidates.contains v)

/-- IntentMetadata (intent.py). -/
structure IntentMetadata where
  intent_tags : List String
  route_method : Option String
  route_path : Option String
  route_intent : Option String
  route_resource : Option String
  structural_terms : List String
  is_route_handler : Bool
deriving DecidableEq

/-- extract_intent_metadata(file_path, symbol_kind, symbol, text): the
per-chunk tag set, route fields, structural terms and the
route-handler flag. The tag set is assembled as a list of conditional
contributions and then sorted/deduplicated, which is the meaning of the
Python set construction followed by sorted(). -/
def extract_intent_metadata (file_path : String) (symbol_kind : Option String)
    (symbol : Option String) (text : String) : IntentMetadata :=
  let terms := normalize_terms (file_path ++ "\n" ++ (symbol.getD "") ++ "\n" ++
    String.mk (text.data.take 8000))
  let route_signal := extract_route_signal text symbol
  let route_method := route_signal.map (·.method)
  let route_path := route_signal.bind (·.path)
  let route_intent := route_signal.map (·.intent)
  let route_resource := route_signal.bind (·.resource)
  let tags : List String :=
    (match route_intent with
     | some ri => [ri ++ "_resource"]
     | none => []) ++
    (if has_any file_path NOISE_PATH_HINTS || has_any_set terms ["fixture", "fixtures", "mock"] then
      (if strContains file_path "seed" || strContains file_path "seeds" then ["seed_data"] else []) ++
      (if strContains file_path "migration" || strContains file_path "migrations" then
        ["migration_script"] else []) ++
      (if has_any file_path ["test", "tests", "spec"] then ["test_script"] else []) ++
      (if has_any file_path ["script", "scripts"] then ["script"] else [])
    else []) ++
    (if has_any_set terms LOGGING_HINTS then ["logging"] else []) ++
    (if has_any_set terms ANALYTICS_HINTS then ["analytics"] else []) ++
    (if has_any_set terms CREATE_HINTS then ["create_resource"] else []) ++
    (if has_any_set terms UPDATE_HINTS then ["update_resource"] else []) ++
    (if has_any_set terms DELETE_HINTS then ["delete_resource"] else []) ++
    (if has_any_set terms READ_HINTS then ["read_resource"] else []) ++
    (if route_signal.isSome then ["route_handler"] else [])
  let structural_terms : List String :=
    terms ++
    (match route_signal with
     | some sig =>
       sig.structural_terms ++ [lowerStr sig.method, lowerStr sig.intent] ++
       (match sig.resource with
        | some r => normalize_terms r
        | none => [])
     | none => [])
  { intent_tags := sortedSet tags
    route_method := route_method
    route_path := route_path
    route_intent := route_intent
    route_resource := route_resource
    structural_terms := sortedSet structural_terms
    is_route_handler := route_signal.isSome || symbol_kind = some "route" }

/-! ## Data model (src/xtrc/core/models.py) -/

/-- Python truthiness of an optional string (None and "" are falsy). -/
def pyTruthyOpt (o : Option String) : Bool :=
  o.getD "" ≠ ""

/-- SymbolBlock. -/
structure SymbolBlock where
  kind : String
  name : Option String
  start_line : Nat
  end_line : Nat
  text : String
deriving DecidableEq

/-- CodeChunk. -/
structure CodeChunk where
  chunk_id : String
  repo_path : String
  file_path : String
  language : String
  start_line : Nat
  end_line : Nat
  symbol : Option String
  symbol_kind : Option String
  description : String
  text : String
  content_hash : String
  tokens : Nat
  keywords : List String
  symbol_terms : List String
  route_method : Option String := none
  route_path : Option String := none
  route_intent : Option String := none
  route_resource : Option String := none
  intent_tags : List String := []
  structural_terms : List String := []
  llm_summary : Option String := none
deriving DecidableEq

/-- QueryMatch. -/
structure QueryMatch where
  chunk : CodeChunk
  vector_score : ℚ
  keyword_score : ℚ
  symbol_score : ℚ
  score : ℚ
  intent_score : ℚ := 0
  structural_score : ℚ := 0
  matched_intents : List String := []
  matched_keywords : List String := []
  explanation : String := ""
deriving DecidableEq

/-- QuerySelection; `source` is "vector" or "gemini" in the source
(Literal type SelectionSource). -/
structure QuerySelection where
  file : String
  line : Nat
  reason : String
  source : String
deriving DecidableEq

/-- QueryOutcome. -/
structure QueryOutcome where
  «matches» : List QueryMatch
  duration_ms : Nat
  selection : Option QuerySelection
  used_gemini : Bool
  gemini_model : Option String
  gemini_latency_ms : Option Nat
  rewritten_query : Option String
deriving DecidableEq

/-- IndexStats. -/
structure IndexStats where
  repo_path : String
  files_scanned : Nat
  files_indexed : Nat
  files_deleted : Nat
  chunks_indexed : Nat
  duration_ms : Nat
deriving DecidableEq

/-! ## Hybrid scorer (src/xtrc/core/scorer.py) -/

/-- The five weights of HybridScorer. -/
def VECTOR_WEIGHT : ℚ := 0.50

/-- KEYWORD_WEIGHT. -/
def KEYWORD_WEIGHT : ℚ := 0.18

/-- SYMBOL_WEIGHT. -/
def SYMBOL_WEIGHT : ℚ := 0.12

/-- INTENT_WEIGHT. -/
def INTENT_WEIGHT : ℚ := 0.12

/-- STRUCTURAL_WEIGHT. -/
def STRUCTURAL_WEIGHT : ℚ := 0.08

/-- HybridScorer._overlap_score: |qset ∩ cset| / |qset|, 0 when either
list is empty. -/
def overlap_score (query_terms candidates : List String) : ℚ :=
  if query_terms.isEmpty || candidates.isEmpty then 0
  else
    ((query_terms.dedup.filter (fun t => candidates.contains t)).length : ℚ) /
      (query_terms.dedup.length : ℚ)

/-- HybridScorer._normalize_vector_score: clamp a cosine score into
[0,1]; scores already there pass through, otherwise map via (s+1)/2. -/
def normalize_vector_score (score : ℚ) : ℚ :=
  if 0 ≤ score ∧ score ≤ 1 then score
  else max 0 (min 1 ((score + 1) / 2))

/-- HybridScorer._intent_score. -/
def intent_score_fn (query_intents : List String)
    (route_intent route_method : Option String) : ℚ :=
  if query_intents.isEmpty then 0
  else
    let candidate : List String :=
      (match route_intent with
       | some ri => [lowerStr ri]
       | none => []) ++
      (match route_method with
       | some rm =>
         let normalized_method := lowerStr rm
         [normalized_method] ++
         (match HTTP_INTENT_MAP normalized_method with
          | some mapped => [mapped]
          | none => [])
       | none => [])
    if candidate.isEmpty then 0
    else
      ((query_intents.dedup.filter (fun i => candidate.contains i)).length : ℚ) /
        (query_intents.dedup.length : ℚ)

/-- The six components returned by HybridScorer.score. -/
structure ScoreParts where
  total : ℚ
  normalized_vector : ℚ
  keyword_score : ℚ
  symbol_score : ℚ
  intent_score : ℚ
  structural_score : ℚ
deriving DecidableEq

/-- HybridScorer.score: the weighted blend of the five signals. -/
def hybrid_score (query : String) (vector_score : ℚ)
    (keywords symbol_terms : List String)
    (route_intent : Option String := none) (route_method : Option String := none)
    (route_resource : Option String := none)
    (structural_terms : Option (List String) := none) : ScoreParts :=
  let query_signal := infer_query_signal query
  let query_terms := normalize_terms query
  let keyword_score := overlap_score query_terms keywords
  let symbol_score := overlap_score query_terms symbol_terms
  let normalized_vector := normalize_vector_score vector_score
  let intent_score := intent_score_fn query_signal.intents route_intent route_method
  let candidate_structural_terms :=
    (structural_terms.getD []) ++
    (match route_method with | some m => [lowerStr m] | none => []) ++
    (match route_intent with | some i => [lowerStr i] | none => []) ++
    (match route_resource with | some r => normalize_terms r | none => [])
  let structural_score := overlap_score query_signal.structural_terms candidate_structural_terms
  { total :=
      VECTOR_WEIGHT * normalized_vector
      + KEYWORD_WEIGHT * keyword_score
      + SYMBOL_WEIGHT * symbol_score
      + INTENT_WEIGHT * intent_score
      + STRUCTURAL_WEIGHT * structural_score
    normalized_vector := normalized_vector
    keyword_score := keyword_score
    symbol_score := symbol_score
    intent_score := intent_score
    structural_score := structural_score }

/-! ## Ranking heuristics (src/xtrc/ranking/heuristics.py) -/

/-- _ROUTE_QUERY_HINTS. -/
def ROUTE_QUERY_HINTS : List String := ["create", "post", "api", "endpoint", "route"]

/-- _NEGATIVE_INTENTS. -/
def NEGATIVE_INTENTS : List String := ["seed_data", "migration_script", "test_script", "script"]

/-- HeuristicDecision. -/
structure HeuristicDecision where
  multiplier : ℚ
  matched_intents : List String
  matched_keywords : List String
  reasons : List String
deriving DecidableEq

/-- RankingHeuristics configuration fields. -/
structure RankingHeuristics where
  route_boost : ℚ
  noise_penalty : ℚ
  intent_boost : ℚ
deriving DecidableEq

/-- The RankingHeuristics constructor: each knob is clamped to at
least 0.1. -/
def RankingHeuristics.make (route_boost : ℚ := 1.3) (noise_penalty : ℚ := 0.7)
    (intent_boost : ℚ := 1.2) : RankingHeuristics :=
  { route_boost := max 0.1 route_boost
    noise_penalty := max 0.1 noise_penalty
    intent_boost := max 0.1 intent_boost }

/-- RankingHeuristics._is_route_chunk. -/
def RankingHeuristics.is_route_chunk (chunk : CodeChunk) : Bool :=
  pyTruthyOpt chunk.route_method || chunk.intent_tags.contains "route_handler" ||
    chunk.symbol_kind = some "route"

/-- RankingHeuristics._matched_intents: sorted set of
`{intent}_resource` tags hit by the query intents. -/
def RankingHeuristics.matched_intents_fn (query_intents : List String)
    (tags : List String) : List String :=
  if query_intents.isEmpty then []
  else
    sortedSet (query_intents.filterMap (fun intent =>
      let key := intent ++ "_resource"
      if tags.contains key then some key else none))

/-- RankingHeuristics._matched_keywords: sorted overlap of query terms
with the chunk's term sets, capped at 8. -/
def RankingHeuristics.matched_keywords_fn (query_terms : List String)
    (chunk : CodeChunk) : List String :=
  let candidate_terms :=
    chunk.keywords ++ chunk.symbol_terms ++ chunk.structural_terms ++
    (match chunk.route_method with | some m => [lowerStr m] | none => []) ++
    (match chunk.route_resource with | some r => normalize_terms r | none => [])
  (sortedSet (query_terms.filter (fun t => candidate_terms.contains t))).take 8

/-- RankingHeuristics.evaluate: multiplicative boosts and penalties with
matched intents/keywords and human-readable reasons. -/
def RankingHeuristics.evaluate (h : RankingHeuristics) (query : String)
    (chunk : CodeChunk) : HeuristicDecision :=
  let query_terms := normalize_terms query
  let query_signal := infer_query_signal query
  let matched_intents := RankingHeuristics.matched_intents_fn query_signal.intents chunk.intent_tags
  let m1 : ℚ := 1.0
  let m2 := if !matched_intents.isEmpty then m1 * h.intent_boost else m1
  let r2 : List String :=
    if !matched_intents.isEmpty then
      ["intent match: " ++ String.intercalate ", " matched_intents]
    else []
  let routeHit := query_terms.any (fun t => ROUTE_QUERY_HINTS.contains t) &&
    RankingHeuristics.is_route_chunk chunk
  let m3 := if routeHit then m2 * h.route_boost else m2
  let r3 := if routeHit then r2 ++ ["route handler boost"] else r2
  let noiseHit := NEGATIVE_INTENTS.any (fun t => chunk.intent_tags.contains t)
  let m4 := if noiseHit then m3 * h.noise_penalty else m3
  let r4 := if noiseHit then r3 ++ ["noise/script penalty"] else r3
  { multiplier := m4
    matched_intents := matched_intents
    matched_keywords := RankingHeuristics.matched_keywords_fn query_terms chunk
    reasons := r4 }

/-! ## Hashing (hashlib.sha256 / sha1, uuid.uuid5)

Words are Nats reduced mod 2^32 by masking after every arithmetic
step, exactly the 32-bit machine arithmetic of the reference
algorithms. -/

/-- UTF-8 encoding of one character. -/
def utf8Encode (c : Char) : List Nat :=
  let n := c.toNat
  if n < 0x80 then [n]
  else if n < 0x800 then
    [0xC0 ||| (n >>> 6), 0x80 ||| (n &&& 0x3F)]
  else if n < 0x10000 then
    [0xE0 ||| (n >>> 12), 0x80 ||| ((n >>> 6) &&& 0x3F), 0x80 ||| (n &&& 0x3F)]
  else
    [0xF0 ||| (n >>> 18), 0x80 ||| ((n >>> 12) &&& 0x3F),
     0x80 ||| ((n >>> 6) &&& 0x3F), 0x80 ||| (n &&& 0x3F)]

/-- The UTF-8 bytes of a string (Python str.encode("utf-8")). -/
def strBytes (s : String) : List Nat :=
  s.data.flatMap utf8Encode

/-- Lowercase hex digit. -/
def hexDigit (n : Nat) : Char :=
  if n < 10 then Char.ofNat (48 + n) else Char.ofNat (87 + n)

/-- Lowercase hex rendering of a byte list. -/
def bytesToHex (bs : List Nat) : String :=
  String.mk (bs.flatMap (fun b => [hexDigit ((b >>> 4) &&& 0xF), hexDigit (b &&& 0xF)]))

/-- 32-bit mask. -/
def mask32 (n : Nat) : Nat := n &&& 0xFFFFFFFF

/-- 32-bit right rotation. -/
def rotr32 (n k : Nat) : Nat :=
  mask32 ((n >>> k) ||| (n <<< (32 - k)))

/-- 32-bit left rotation. -/
def rotl32 (n k : Nat) : Nat :=
  mask32 ((n <<< k) ||| (n >>> (32 - k)))

/-- Big-endian bytes of a number, fixed width. -/
def toBytesBE (width n : Nat) : List Nat :=
  (List.range width).map (fun i => (n >>> (8 * (width - 1 - i))) &&& 0xFF)

/-- Group bytes into big-endian 32-bit words. -/
def bytesToWordsBE : List Nat → List Nat
  | b0 :: b1 :: b2 :: b3 :: rest =>
    ((((b0 <<< 8) ||| b1) <<< 8 ||| b2) <<< 8 ||| b3) :: bytesToWordsBE rest
  | _ => []

/-- Merkle–Damgård padding shared by SHA-1 and SHA-256: append 0x80,
zero-pad to 56 mod 64 bytes, append the 64-bit big-endian bit length. -/
def shaPad (msg : List Nat) : List Nat :=
  let L := msg.length
  let r := (L + 1) % 64
  let k := (56 + 64 - r) % 64
  msg ++ [0x80] ++ List.replicate k 0 ++ toBytesBE 8 (8 * L)

/-- Split a word list into 16-word blocks (fueled). -/
def wordBlocksF : Nat → List Nat → List (List Nat)
  | 0, _ => []
  | _ + 1, [] => []
  | fuel + 1, ws => ws.take 16 :: wordBlocksF fuel (ws.drop 16)

/-- The 16-word blocks of a padded message. -/
def wordBlocks (ws : List Nat) : List (List Nat) :=
  wordBlocksF ws.length ws

/-- SHA-256 round constants. -/
def sha256K : List Nat :=
  [0x428A2F98, 0x71374491, 0xB5C0FBCF, 0xE9B5DBA5, 0x3956C25B, 0x59F111F1,
   0x923F82A4, 0xAB1C5ED5, 0xD807AA98, 0x12835B01, 0x243185BE, 0x550C7DC3,
   0x72BE5D74, 0x80DEB1FE, 0x9BDC06A7, 0xC19BF174, 0xE49B69C1, 0xEFBE4786,
   0x0FC19DC6, 0x240CA1CC, 0x2DE92C6F, 0x4A7484AA, 0x5CB0A9DC, 0x76F988DA,
   0x983E5152, 0xA831C66D, 0xB00327C8, 0xBF597FC7, 0xC6E00BF3, 0xD5A79147,
   0x06CA6351, 0x14292967, 0x27B70A85, 0x2E1B2138, 0x4D2C6DFC, 0x53380D13,
   0x650A7354, 0x766A0ABB, 0x81C2C92E, 0x92722C85, 0xA2BFE8A1, 0xA81A664B,
   0xC24B8B70, 0xC76C51A3, 0xD192E819, 0xD6990624, 0xF40E3585, 0x106AA070,
   0x19A4C116, 0x1E376C08, 0x2748774C, 0x34B0BCB5, 0x391C0CB3, 0x4ED8AA4A,
   0x5B9CCA4F, 0x682E6FF3, 0x748F82EE, 0x78A5636F, 0x84C87814, 0x8CC70208,
   0x90BEFFFA, 0xA4506CEB, 0xBEF9A3F7, 0xC67178F2]

/-- SHA-256 message schedule, carried as a reversed word list so the
most recent words are at the head. -/
def sha256SchedRev : Nat → List Nat → List Nat
  | 0, wrev => wrev
  | n + 1, wrev =>
    let g := fun k => wrev.getD k 0
    let s0 := rotr32 (g 14) 7 ^^^ rotr32 (g 14) 18 ^^^ ((g 14) >>> 3)
    let s1 := rotr32 (g 1) 17 ^^^ rotr32 (g 1) 19 ^^^ ((g 1) >>> 10)
    sha256SchedRev n (mask32 (g 15 + s0 + g 6 + s1) :: wrev)

/-- One SHA-256 compression round. -/
def sha256Round (st : List Nat) (kw : Nat × Nat) : List Nat :=
  match st with
  | [a, b, c, d, e, f, g, h] =>
    let S1 := rotr32 e 6 ^^^ rotr32 e 11 ^^^ rotr32 e 25
    let ch := (e &&& f) ^^^ ((0xFFFFFFFF ^^^ e) &&& g)
    let temp1 := mask32 (h + S1 + ch + kw.1 + kw.2)
    let S0 := rotr32 a 2 ^^^ rotr32 a 13 ^^^ rotr32 a 22
    let maj := (a &&& b) ^^^ (a &&& c) ^^^ (b &&& c)
    let temp2 := mask32 (S0 + maj)
    [mask32 (temp1 + temp2), a, b, c, mask32 (d + temp1), e, f, g]
  | other => other

/-- SHA-256 compression of one 16-word block into the running hash. -/
def sha256Block (hs : List Nat) (block : List Nat) : List Nat :=
  let w := (sha256SchedRev 48 block.reverse).reverse
  let st := (sha256K.zip w).foldl sha256Round hs
  (hs.zip st).map (fun p => mask32 (p.1 + p.2))

/-- SHA-256 digest of a byte list. -/
def sha256Bytes (msg : List Nat) : List Nat :=
  let init := [0x6a09e667, 0xbb67ae85, 0x3c6ef372, 0xa54ff53a,
               0x510e527f, 0x9b05688c, 0x1f83d9ab, 0x5be0cd19]
  let final := (wordBlocks (bytesToWordsBE (shaPad msg))).foldl sha256Block init
  final.flatMap (toBytesBE 4)

/-- hashlib.sha256(s.encode("utf-8")).hexdigest(). -/
def sha256_hex (s : String) : String :=
  bytesToHex (sha256Bytes (strBytes s))

/-- sha256_text (src/xtrc/core/repo.py). -/
def sha256_text (text : String) : String :=
  sha256_hex text

/-- SHA-1 message schedule (reversed carry as in `sha256SchedRev`). -/
def sha1SchedRev : Nat → List Nat → List Nat
  | 0, wrev => wrev
  | n + 1, wrev =>
    let g := fun k => wrev.getD k 0
    sha1SchedRev n (rotl32 (g 2 ^^^ g 7 ^^^ g 13 ^^^ g 15) 1 :: wrev)

/-- One SHA-1 compression round; the first component counts rounds. -/
def sha1Round (st : Nat × List Nat) (w : Nat) : Nat × List Nat :=
  match st with
  | (i, [a, b, c, d, e]) =>
    let fk :=
      if i < 20 then ((b &&& c) ||| ((0xFFFFFFFF ^^^ b) &&& d), 0x5a827999)
      else if i < 40 then (b ^^^ c ^^^ d, 0x6ed9eba1)
      else if i < 60 then ((b &&& c) ||| (b &&& d) ||| (c &&& d), 0x8f1bbcdc)
      else (b ^^^ c ^^^ d, 0xca62c1d6)
    let temp := mask32 (rotl32 a 5 + fk.1 + e + fk.2 + w)
    (i + 1, [temp, a, rotl32 b 30, c, d])
  | other => other

/-- SHA-1 compression of one 16-word block. -/
def sha1Block (hs : List Nat) (block : List Nat) : List Nat :=
  let w := (sha1SchedRev 64 block.reverse).reverse
  let st := (w.foldl sha1Round (0, hs)).2
  (hs.zip st).map (fun p => mask32 (p.1 + p.2))

/-- SHA-1 digest of a byte list. -/
def sha1Bytes (msg : List Nat) : List Nat :=
  let init := [0x67452301, 0xefcdab89, 0x98badcfe, 0x10325476, 0xc3d2e1f0]
  let final := (wordBlocks (bytesToWordsBE (shaPad msg))).foldl sha1Block init
  final.flatMap (toBytesBE 4)

/-- hashlib.sha1(s.encode("utf-8")).hexdigest(). -/
def sha1_hex (s : String) : String :=
  bytesToHex (sha1Bytes (strBytes s))

/-- The byte form of uuid.NAMESPACE_URL. -/
def NAMESPACE_URL_BYTES : List Nat :=
  [0x6b, 0xa7, 0xb8, 0x11, 0x9d, 0xad, 0x11, 0xd1,
   0x80, 0xb4, 0x00, 0xc0, 0x4f, 0xd4, 0x30, 0xc8]

/-- str(uuid.uuid5(uuid.NAMESPACE_URL, name)): SHA-1 of namespace bytes
plus the name, truncated to 16 bytes with version/variant bits set,
rendered 8-4-4-4-12. -/
def uuid5_url (name : String) : String :=
  let digest := (sha1Bytes (NAMESPACE_URL_BYTES ++ strBytes name)).take 16
  let bs := digest.mapIdx (fun i b =>
    if i = 6 then (b &&& 0x0F) ||| 0x50
    else if i = 8 then (b &&& 0x3F) ||| 0x80
    else b)
  bytesToHex (bs.take 4) ++ "-" ++ bytesToHex ((bs.drop 4).take 2) ++ "-" ++
    bytesToHex ((bs.drop 6).take 2) ++ "-" ++ bytesToHex ((bs.drop 8).take 2) ++ "-" ++
    bytesToHex (bs.drop 10)

/-! ## Chunk builder (src/xtrc/core/chunker.py) -/

/-- Python str.splitlines restricted to \n, \r\n and \r terminators
(the only ones occurring in ASCII source text). -/
def pySplitlinesGo : List Char → List Char → List (List Char)
  | acc, [] => if acc.isEmpty then [] else [acc.reverse]
  | acc, '\r' :: '\n' :: rest => acc.reverse :: pySplitlinesGo [] rest
  | acc, '\r' :: rest => acc.reverse :: pySplitlinesGo [] rest
  | acc, '\n' :: rest => acc.reverse :: pySplitlinesGo [] rest
  | acc, c :: rest => pySplitlinesGo (c :: acc) rest

/-- Python str.splitlines. -/
def pySplitlines (s : String) : List String :=
  (pySplitlinesGo [] s.data).map (fun l => String.mk l)

/-- _ChunkDraft. -/
structure ChunkDraft where
  start_line : Nat
  end_line : Nat
  symbol : Option String
  symbol_kind : Option String
  text : String
deriving DecidableEq

/-- _ChunkDraft.tokens. -/
def ChunkDraft.tokens (d : ChunkDraft) : Nat :=
  estimate_tokens d.text

/-- ChunkBuilder configuration. -/
structure ChunkBuilder where
  min_tokens : Nat := 200
  max_tokens : Nat := 800
  target_tokens : Nat := 500
deriving DecidableEq

/-- The loop of _split_text_by_lines: walk lines accumulating a block;
emit when the projected size passes target (and the block meets min),
and always emit when the block reaches max. `current` is the reversed
accumulated block. -/
def splitLinesLoop (cb : ChunkBuilder) (start_line : Nat) :
    List String → List String → Nat → Nat → Nat → List (String × Nat × Nat)
  | [], current, _, block_start, _ =>
    if current.isEmpty then []
    else [(String.intercalate "\n" current.reverse, block_start, block_start + current.length - 1)]
  | line :: rest, current, current_tokens, block_start, idx =>
    let line_tokens := estimate_tokens line
    let projected := current_tokens + line_tokens
    let st :=
      if !current.isEmpty && projected > cb.target_tokens && current_tokens ≥ cb.min_tokens then
        let end_line := block_start + current.length - 1
        ([(String.intercalate "\n" current.reverse, block_start, end_line)],
          ([] : List String), 0, start_line + idx)
      else ([], current, current_tokens, block_start)
    match st with
    | (emitted, current, current_tokens, block_start) =>
      let current := line :: current
      let current_tokens := current_tokens + line_tokens
      if current_tokens ≥ cb.max_tokens then
        let end_line := block_start + current.length - 1
        emitted ++ (String.intercalate "\n" current.reverse, block_start, end_line) ::
          splitLinesLoop cb start_line rest [] 0 (end_line + 1) (idx + 1)
      else
        emitted ++ splitLinesLoop cb start_line rest current current_tokens block_start (idx + 1)

/-- _split_text_by_lines. -/
def split_text_by_lines (cb : ChunkBuilder) (text : String) (start_line : Nat) :
    List (String × Nat × Nat) :=
  splitLinesLoop cb start_line (pySplitlines text) [] 0 start_line 0

/-- _slice_file_fallback. -/
def slice_file_fallback (cb : ChunkBuilder) (lines : List String) : List ChunkDraft :=
  if lines.isEmpty then []
  else
    let content := String.intercalate "\n" lines
    if estimate_tokens content ≤ cb.max_tokens then
      [{ start_line := 1, end_line := lines.length, symbol := none,
         symbol_kind := some "major_block", text := content }]
    else
      (split_text_by_lines cb content 1).map (fun t =>
        { start_line := t.2.1, end_line := t.2.2, symbol := none,
          symbol_kind := some "major_block", text := t.1 })

/-- Stable sort of symbols by (start_line, end_line). -/
def sortSymbols (symbols : List SymbolBlock) : List SymbolBlock :=
  List.insertionSort
    (fun a b => a.start_line < b.start_line ∨
      (a.start_line = b.start_line ∧ a.end_line ≤ b.end_line)) symbols

/-- _initial_drafts. -/
def initial_drafts (cb : ChunkBuilder) (content : String) (symbols : List SymbolBlock) :
    List ChunkDraft :=
  let lines := pySplitlines content
  if symbols.isEmpty then slice_file_fallback cb lines
  else
    let ordered := sortSymbols symbols
    let drafts := ordered.filterMap (fun symbol =>
      let start := max symbol.start_line 1
      let «end» := max symbol.end_line start
      let text := pyStrip (String.intercalate "\n" ((lines.drop (start - 1)).take («end» - (start - 1))))
      if text = "" then none
      else some { start_line := start, end_line := «end», symbol := symbol.name,
                  symbol_kind := some symbol.kind, text := text })
    if drafts.isEmpty then slice_file_fallback cb lines else drafts

/-- _split_large_drafts. -/
def split_large_drafts (cb : ChunkBuilder) (drafts : List ChunkDraft) : List ChunkDraft :=
  drafts.flatMap (fun draft =>
    if draft.tokens ≤ cb.max_tokens then [draft]
    else
      (split_text_by_lines cb draft.text draft.start_line).map (fun t =>
        { start_line := t.2.1, end_line := t.2.2, symbol := draft.symbol,
          symbol_kind := draft.symbol_kind, text := t.1 }))

/-- The flush of the merge-pass buffer: one draft emits unchanged, a
multi-draft buffer merges into one major_block spanning the buffer. -/
def flushBuffer : List ChunkDraft → List ChunkDraft
  | [] => []
  | [d] => [d]
  | b0 :: b1 :: bs =>
    [{ start_line := b0.start_line
       end_line := (((b1 :: bs).getLast?).getD b1).end_line
       symbol := none
       symbol_kind := some "major_block"
       text := String.intercalate "\n\n" ((b0 :: b1 :: bs).map (·.text)) }]

/-- The main loop of _merge_small_drafts over the sorted drafts. -/
def mergeLoop (cb : ChunkBuilder) : List ChunkDraft → List ChunkDraft → List ChunkDraft
  | buffer, [] => flushBuffer buffer
  | buffer, draft :: rest =>
    if draft.tokens ≥ cb.min_tokens then
      flushBuffer buffer ++ draft :: mergeLoop cb [] rest
    else
      match buffer with
      | [] => mergeLoop cb [draft] rest
      | b0 :: bs =>
        let current_tokens :=
          estimate_tokens (String.intercalate "\n\n" ((b0 :: bs).map (·.text)))
        let gap : Int :=
          (draft.start_line : Int) - ((((b0 :: bs).getLast?).getD b0).end_line : Int)
        if current_tokens + draft.tokens ≤ cb.max_tokens ∧ gap ≤ 40 then
          mergeLoop cb (b0 :: bs ++ [draft]) rest
        else
          flushBuffer (b0 :: bs) ++ mergeLoop cb [draft] rest

/-- Stable sort of drafts by (start_line, end_line), the sort opening
_merge_small_drafts. -/
def sortDrafts (drafts : List ChunkDraft) : List ChunkDraft :=
  List.insertionSort
    (fun a b => a.start_line < b.start_line ∨
      (a.start_line = b.start_line ∧ a.end_line ≤ b.end_line)) drafts

/-- _merge_small_drafts: merge pass plus the final backward merge of a
still-too-small tail chunk. -/
def merge_small_drafts (cb : ChunkBuilder) (drafts : List ChunkDraft) : List ChunkDraft :=
  if drafts.isEmpty then []
  else
    let merged := mergeLoop cb [] (sortDrafts drafts)
    match merged.reverse with
    | tail :: prev :: restRev =>
      if tail.tokens < cb.min_tokens then
        let combined_text := prev.text ++ "\n\n" ++ tail.text
        if estimate_tokens combined_text ≤ cb.max_tokens then
          (({ start_line := prev.start_line, end_line := tail.end_line,
              symbol := prev.symbol, symbol_kind := prev.symbol_kind,
              text := combined_text } : ChunkDraft) :: restRev).reverse
        else merged
      else merged
    | _ => merged

/-- ChunkBuilder._describe. -/
def describe (file_path : String) (draft : ChunkDraft) (intent_meta : IntentMetadata) :
    String :=
  let stripped := pyStrip draft.text
  let first_line :=
    if stripped ≠ "" then pyStrip ((pySplitlines stripped).headD "") else ""
  let preview := String.mk (first_line.data.take 120)
  let route_suffix :=
    match intent_meta.route_method with
    | some m =>
      " Intent: " ++ (intent_meta.route_intent.getD "unknown") ++ " resource." ++
      " HTTP method: " ++ m ++ "." ++
      (match intent_meta.route_resource with
       | some r => " Resource: " ++ r ++ "."
       | none => "") ++
      (match intent_meta.route_path with
       | some p => " Path: " ++ p ++ "."
       | none => "")
    | none => ""
  let route_suffix :=
    if !intent_meta.intent_tags.isEmpty then
      route_suffix ++ " Tags: " ++ String.intercalate ", " intent_meta.intent_tags ++ "."
    else route_suffix
  if draft.symbol_kind = some "class" && draft.symbol.isSome then
    pyStrip ("Class " ++ draft.symbol.getD "" ++ " in " ++ file_path ++
      ". Starts with: " ++ preview ++ route_suffix)
  else if draft.symbol_kind = some "route" then
    let route_name := draft.symbol.getD "unnamed route"
    pyStrip ("Route handler " ++ route_name ++ " in " ++ file_path ++
      ". Starts with: " ++ preview ++ route_suffix)
  else if draft.symbol_kind = some "handler" then
    let handler := draft.symbol.getD "anonymous handler"
    pyStrip ("Handler " ++ handler ++ " in " ++ file_path ++
      ". Starts with: " ++ preview ++ route_suffix)
  else if draft.symbol.isSome && draft.symbol_kind = some "function" then
    pyStrip ("Function " ++ draft.symbol.getD "" ++ " in " ++ file_path ++
      ". Starts with: " ++ preview ++ route_suffix)
  else
    pyStrip ("Major code block in " ++ file_path ++ " (lines " ++
      toString draft.start_line ++ "-" ++ toString draft.end_line ++
      "). Starts with: " ++ preview ++ route_suffix)

/-- ChunkBuilder.build_chunks. The caller-side path arithmetic
(`file_path.relative_to(repo_path)`) is passed in as `relative_path`. -/
def build_chunks (cb : ChunkBuilder) (repo_path relative_path language file_hash content : String)
    (symbols : List SymbolBlock) : List CodeChunk :=
  let drafts := initial_drafts cb content symbols
  let drafts := split_large_drafts cb drafts
  let drafts := merge_small_drafts cb drafts
  drafts.map (fun draft =>
    let intent_meta := extract_intent_metadata relative_path draft.symbol_kind draft.symbol draft.text
    let description := describe relative_path draft intent_meta
    let symbol_terms := normalize_terms (draft.symbol.getD "")
    let structural_terms := sortedSet (intent_meta.structural_terms ++ normalize_terms relative_path)
    let symbol_terms :=
      if !structural_terms.isEmpty then symbol_terms ++ structural_terms else symbol_terms
    let symbol_terms := sortedSet symbol_terms
    let keyword_source :=
      [description, String.mk (draft.text.data.take 4000)] ++
      (match intent_meta.route_method with
       | some m =>
         [String.intercalate "\n"
           (["Intent: " ++ (intent_meta.route_intent.getD "unknown") ++ " resource",
             "HTTP method: " ++ m] ++
            (match intent_meta.route_resource with
             | some r => ["Resource: " ++ r]
             | none => []) ++
            (match intent_meta.route_path with
             | some p => ["Path: " ++ p]
             | none => []))]
       | none => [])
    let keyword_terms := normalize_terms (String.intercalate "\n" keyword_source)
    let chunk_hash := sha256_hex (relative_path ++ "|" ++ toString draft.start_line ++ "|" ++
      toString draft.end_line ++ "|" ++ draft.text)
    { chunk_id := chunk_hash
      repo_path := repo_path
      file_path := relative_path
      language := language
      start_line := draft.start_line
      end_line := draft.end_line
      symbol := draft.symbol
      symbol_kind := draft.symbol_kind
      description := description
      text := draft.text
      content_hash := file_hash
      tokens := estimate_tokens draft.text
      keywords := keyword_terms
      symbol_terms := symbol_terms
      route_method := intent_meta.route_method
      route_path := intent_meta.route_path
      route_intent := intent_meta.route_intent
      route_resource := intent_meta.route_resource
      intent_tags := intent_meta.intent_tags
      structural_terms := structural_terms })

/-! ## Numeric formatting (Python format specs .3f / .2f)

Floats being idealised as rationals, fixed-point formatting is
round-half-even on the rational value. -/

/-- Floor of a rational as an integer. -/
def ratFloorZ (q : ℚ) : Int :=
  q.num.fdiv q.den

/-- Round a rational to the nearest integer, ties to even (the rounding
of Python float formatting). -/
def roundHalfEven (x : ℚ) : Int :=
  let fl := ratFloorZ x
  let r : ℚ := x - (fl : ℚ)
  if r < 1 / 2 then fl
  else if 1 / 2 < r then fl + 1
  else if fl % 2 = 0 then fl else fl + 1

/-- Decimal digits of a natural number padded to a width. -/
def padNat (width n : Nat) : String :=
  let s := toString n
  String.mk (List.replicate (width - s.length) '0') ++ s

/-- Python f-string fixed-point formatting `{q:.d f}`. -/
def pyFormatF (d : Nat) (q : ℚ) : String :=
  let n := roundHalfEven (q * (10 ^ d : Nat))
  let m := n.natAbs
  let intPart := m / 10 ^ d
  let frac := m % 10 ^ d
  (if q < 0 then "-" else "") ++ toString intPart ++ "." ++ padNat d frac

/-! ## LLM reranker (src/xtrc/llm/reranker.py)

The GeminiClient is an injected collaborator; it is modelled as an
oracle giving the outcome of its two calls (rewrite_query and
complete_json). Errors raised by the client (GeminiClientError) and by
payload validation (KeyError / ValueError / TypeError) are carried as
`Except.error` with the exception text. The prompt strings the client
ignores are not materialised. -/

/-- A Python JSON-ish value as far as the payload validation looks at
it: a string, an integer, or anything else. -/
inductive PyVal where
  | pstr (s : String)
  | pint (n : Int)
  | pother
deriving DecidableEq

/-- The payload dict returned by complete_json; a `none` field is a
missing key (KeyError on access). -/
structure RerankPayload where
  file : Option PyVal
  line : Option PyVal
  reason : Option PyVal
deriving DecidableEq

/-- RerankDecision. -/
structure RerankDecision where
  selection : QuerySelection
  used_gemini : Bool
  gemini_model : Option String
  gemini_latency_ms : Option Nat
  rewritten_query : Option String
deriving DecidableEq

/-- GeminiReranker configuration fields. -/
structure GeminiReranker where
  model_name : String
  threshold : ℚ
  enable_rewrite : Bool
  max_candidates : Nat
deriving DecidableEq

/-- The GeminiReranker constructor: threshold clamps into [0,1],
max_candidates to at least 1. -/
def GeminiReranker.make (model_name : String) (threshold : ℚ := 0.85)
    (enable_rewrite : Bool := false) (max_candidates : Nat := 10) : GeminiReranker :=
  { model_name := model_name
    threshold := max 0 (min 1 threshold)
    enable_rewrite := enable_rewrite
    max_candidates := max 1 max_candidates }

/-- The outcomes of the two client calls the reranker may make. -/
structure GeminiClientOracle where
  rewrite_result : Except String (String × Nat)
  complete_result : Except String (RerankPayload × Nat)

/-- Python max(same_file_candidates, key=score): the first candidate of
maximal score. -/
def maxByScore (c0 : QueryMatch) (cs : List QueryMatch) : QueryMatch :=
  cs.foldl (fun best item => if item.score > best.score then item else best) c0

/-- GeminiReranker._selection_from_payload: validate the payload shape,
find the candidate containing the chosen line, snap to the best
candidate of the chosen file when the line misses, and fail when the
file is not a candidate at all. -/
def selection_from_payload (payload : RerankPayload) (candidates : List QueryMatch) :
    Except String QuerySelection :=
  match payload.file, payload.line, payload.reason with
  | none, _, _ => .error "KeyError: file"
  | some _, none, _ => .error "KeyError: line"
  | some _, some _, none => .error "KeyError: reason"
  | some fileV, some lineV, some reasonV =>
    match fileV with
    | .pstr file_path =>
      if pyStrip file_path ≠ "" then
        match lineV with
        | .pint line =>
          if line > 0 then
            match reasonV with
            | .pstr reason =>
              if pyStrip reason ≠ "" then
                match candidates.find? (fun item =>
                  item.chunk.file_path = file_path ∧
                    (item.chunk.start_line : Int) ≤ line ∧
                      line ≤ (item.chunk.end_line : Int)) with
                | some candidate =>
                  .ok { file := candidate.chunk.file_path, line := line.toNat,
                        reason := pyStrip reason, source := "gemini" }
                | none =>
                  match candidates.filter (fun item => item.chunk.file_path = file_path) with
                  | c0 :: cs =>
                    let candidate := maxByScore c0 cs
                    .ok { file := candidate.chunk.file_path,
                          line := candidate.chunk.start_line,
                          reason := pyStrip reason, source := "gemini" }
                  | [] => .error "Gemini selected a file that is not part of the candidate list"
              else .error "Gemini output must include non-empty string reason"
            | _ => .error "Gemini output must include non-empty string reason"
          else .error "Gemini output must include positive integer line"
        | _ => .error "Gemini output must include positive integer line"
      else .error "Gemini output must include non-empty string file"
    | _ => .error "Gemini output must include non-empty string file"

/-- GeminiReranker.decide, returning the decision together with the
number of LLM client calls performed. -/
def GeminiReranker.decide (r : GeminiReranker) (client : GeminiClientOracle)
    (_query : String) («matches» : List QueryMatch) : Option RerankDecision × Nat :=
  match «matches» with
  | [] => (none, 0)
  | best :: _ =>
    if best.vector_score ≥ r.threshold then
      let reason := "High vector confidence " ++ pyFormatF 3 best.vector_score ++
        " meets threshold " ++ pyFormatF 2 r.threshold ++ "; returning top semantic match."
      (some { selection := { file := best.chunk.file_path, line := best.chunk.start_line,
                             reason := reason, source := "vector" }
              used_gemini := false
              gemini_model := none
              gemini_latency_ms := none
              rewritten_query := none }, 0)
    else
      let candidates := «matches».take r.max_candidates
      let rw : Option String × Nat × Nat :=
        if r.enable_rewrite then
          match client.rewrite_result with
          | .ok (rq, ms) => (some rq, ms, 1)
          | .error _ => (none, 0, 1)
        else (none, 0, 0)
      match rw with
      | (rewritten_query, rewrite_latency, rewrite_calls) =>
        match client.complete_result with
        | .error e =>
          let fallback_reason := "Gemini rerank failed (" ++ e ++
            "); falling back to top vector candidate with score " ++
            pyFormatF 3 best.vector_score ++ "."
          (some { selection := { file := best.chunk.file_path, line := best.chunk.start_line,
                                 reason := fallback_reason, source := "vector" }
                  used_gemini := false
                  gemini_model := some r.model_name
                  gemini_latency_ms := if rewrite_latency = 0 then none else some rewrite_latency
                  rewritten_query := rewritten_query }, rewrite_calls + 1)
        | .ok (payload, rerank_latency) =>
          let total_latency := rewrite_latency + rerank_latency
          match selection_from_payload payload candidates with
          | .error e =>
            let fallback_reason := "Gemini rerank failed (" ++ e ++
              "); falling back to top vector candidate with score " ++
              pyFormatF 3 best.vector_score ++ "."
            (some { selection := { file := best.chunk.file_path, line := best.chunk.start_line,
                                   reason := fallback_reason, source := "vector" }
                    used_gemini := false
                    gemini_model := some r.model_name
                    gemini_latency_ms := if total_latency = 0 then none else some total_latency
                    rewritten_query := rewritten_query }, rewrite_calls + 1)
          | .ok selection =>
            (some { selection := selection
                    used_gemini := true
                    gemini_model := some r.model_name
                    gemini_latency_ms := some total_latency
                    rewritten_query := rewritten_query }, rewrite_calls + 1)

/-! ## Local cross-encoder reranker (src/xtrc/query/rerank.py)

The cross-encoder predict call is an oracle (`predict_result`), and the
transcendental sigmoid is passed as a function; the reference _sigmoid
has range (0,1) and sigmoid 0 = 1/2. A strict-zip length mismatch is an
uncaught exception, modelled as `none`. Wall-clock latency is modelled
as 0. -/

/-- LocalReranker configuration fields. -/
structure LocalReranker where
  enabled : Bool
  model_name : String
  max_candidates : Nat
  timeout_seconds : ℚ
deriving DecidableEq

/-- The LocalReranker constructor with its clamps. -/
def LocalReranker.make (enabled : Bool)
    (model_name : String := "cross-encoder/ms-marco-MiniLM-L-6-v2")
    (max_candidates : Nat := 10) (timeout_seconds : ℚ := 2.0) : LocalReranker :=
  { enabled := enabled
    model_name := model_name
    max_candidates := max 1 max_candidates
    timeout_seconds := max 0.1 timeout_seconds }

/-- Stable descending sort by score (reranked.sort(key=score,
reverse=True)). -/
def sortByScoreDesc (ms : List QueryMatch) : List QueryMatch :=
  List.insertionSort (fun a b => b.score ≤ a.score) ms

/-- LocalReranker.rerank: blend the top window with sigmoided
cross-encoder scores, re-sort it, and append the untouched tail. -/
def LocalReranker.rerank (lr : LocalReranker) (sigmoid : ℚ → ℚ)
    (predict_result : Except String (List ℚ)) (_query : String)
    («matches» : List QueryMatch) : Option (List QueryMatch × Bool × Option Nat) :=
  if !lr.enabled || «matches».length ≤ 1 then some («matches», false, none)
  else
    let target := «matches».take lr.max_candidates
    let remainder := «matches».drop lr.max_candidates
    match predict_result with
    | .error _ => some («matches», false, none)
    | .ok scores =>
      if scores.length ≠ target.length then none
      else
        let reranked := (target.zip scores).map (fun p =>
          let combined := 0.7 * p.1.score + 0.3 * sigmoid p.2
          let explanation :=
            if p.1.explanation ≠ "" then
              p.1.explanation ++ "; local reranker score=" ++ pyFormatF 3 p.2
            else "local reranker score=" ++ pyFormatF 3 p.2
          { p.1 with score := combined, explanation := explanation })
        some (sortByScoreDesc reranked ++ remainder, true, some 0)

/-! ## Vector store (src/xtrc/core/vector_store.py)

The embedded local qdrant is a map from collection name to a
collection of fixed dimension holding id/vector/payload points. Cosine
scores over the (normalised) vectors are their dot products. -/

/-- AinavError (src/xtrc/core/errors.py): code, message, HTTP status
and an integer details payload. -/
structure AinavError where
  code : String
  message : String
  status_code : Nat
  details : List (String × Int)
deriving DecidableEq

/-- The payload stored with each vector point (upsert_chunks). -/
structure VecPayload where
  chunk_id : Option String
  repo_path : String
  file_path : String
  language : String
  start_line : Nat
  end_line : Nat
  symbol : Option String
  symbol_kind : Option String
  description : String
  keywords : List String
  symbol_terms : List String
  route_method : Option String
  route_path : Option String
  route_intent : Option String
  route_resource : Option String
  intent_tags : List String
  structural_terms : List String
deriving DecidableEq

/-- A stored point. -/
structure VecPoint where
  id : String
  vector : List ℚ
  payload : VecPayload
deriving DecidableEq

/-- A per-repo collection. -/
structure VecCollection where
  dim : Nat
  points : List VecPoint
deriving DecidableEq

/-- The vector-store state: collections by name. -/
abbrev VecState := List (String × VecCollection)

/-- QdrantVectorStore.collection_name: ainav_ + first 20 hex chars of
sha1(repo_path). -/
def collection_name (repo_path : String) : String :=
  "ainav_" ++ String.mk ((sha1_hex repo_path).data.take 20)

/-- QdrantVectorStore.point_id: stable UUIDv5 under the URL
namespace. -/
def point_id (chunk_id : String) : String :=
  uuid5_url chunk_id

/-- Look up a collection by name. -/
def VecState.find (vs : VecState) (name : String) : Option VecCollection :=
  (vs.find? (fun p => decide (p.1 = name))).map (·.2)

/-- Remove a collection (delete_collection). -/
def VecState.erase (vs : VecState) (name : String) : VecState :=
  vs.filter (fun p => decide (p.1 ≠ name))

/-- Create or replace a collection. -/
def VecState.set (vs : VecState) (name : String) (c : VecCollection) : VecState :=
  if (VecState.find vs name).isSome then
    vs.map (fun p => if p.1 = name then (name, c) else p)
  else
    vs ++ [(name, c)]

/-- QdrantVectorStore.ensure_collection: drop on explicit recreate, drop
on a dimension mismatch, create when absent; reports whether a
(re)creation happened. -/
def ensure_collection (vs : VecState) (repo_path : String) (vector_size : Nat)
    (recreate : Bool := false) : Bool × VecState :=
  let collection := collection_name repo_path
  let exists0 := (VecState.find vs collection).isSome
  let st1 : Bool × Bool × VecState :=
    if recreate && exists0 then (false, true, VecState.erase vs collection)
    else (exists0, false, vs)
  match st1 with
  | (exists1, recreated1, vs1) =>
    let st2 : Bool × Bool × VecState :=
      if exists1 && !recreate then
        match VecState.find vs1 collection with
        | some c =>
          if c.dim ≠ vector_size then (false, true, VecState.erase vs1 collection)
          else (exists1, recreated1, vs1)
        | none => (exists1, recreated1, vs1)
      else (exists1, recreated1, vs1)
    match st2 with
    | (exists2, recreated2, vs2) =>
      if !exists2 then
        (true, VecState.set vs2 collection { dim := vector_size, points := [] })
      else (recreated2, vs2)

/-- The payload packaged by upsert_chunks for a chunk. -/
def chunkPayload (chunk : CodeChunk) : VecPayload :=
  { chunk_id := some chunk.chunk_id
    repo_path := chunk.repo_path
    file_path := chunk.file_path
    language := chunk.language
    start_line := chunk.start_line
    end_line := chunk.end_line
    symbol := chunk.symbol
    symbol_kind := chunk.symbol_kind
    description := chunk.description
    keywords := chunk.keywords
    symbol_terms := chunk.symbol_terms
    route_method := chunk.route_method
    route_path := chunk.route_path
    route_intent := chunk.route_intent
    route_resource := chunk.route_resource
    intent_tags := chunk.intent_tags
    structural_terms := chunk.structural_terms }

/-- Upsert one point into a point list (replace by id or append). -/
def upsertPoint (points : List VecPoint) (p : VecPoint) : List VecPoint :=
  if points.any (fun q => q.id = p.id) then
    points.map (fun q => if q.id = p.id then p else q)
  else points ++ [p]

/-- QdrantVectorStore.upsert_chunks; `none` models the strict-zip error
raised when chunks and vectors disagree in length. -/
def VectorStore.upsert_chunks (vs : VecState) (repo_path : String)
    (chunks : List CodeChunk) (vectors : List (List ℚ)) : Option VecState :=
  if chunks.isEmpty then some vs
  else if chunks.length ≠ vectors.length then none
  else
    let collection := collection_name repo_path
    let vs := (ensure_collection vs repo_path (vectors.headD []).length).2
    match VecState.find vs collection with
    | none => some vs
    | some c =>
      let points := (chunks.zip vectors).foldl
        (fun acc p => upsertPoint acc
          { id := point_id p.1.chunk_id, vector := p.2, payload := chunkPayload p.1 })
        c.points
      some (VecState.set vs collection { c with points := points })

/-- QdrantVectorStore.delete_chunk_ids. -/
def VectorStore.delete_chunk_ids (vs : VecState) (repo_path : String)
    (chunk_ids : List String) : VecState :=
  if chunk_ids.isEmpty then vs
  else
    let collection := collection_name repo_path
    match VecState.find vs collection with
    | none => vs
    | some c =>
      let pids := chunk_ids.map point_id
      VecState.set vs collection
        { c with points := c.points.filter (fun p => !pids.contains p.id) }

/-- QdrantVectorStore.delete_file_chunks (payload filter on
file_path). -/
def VectorStore.delete_file_chunks (vs : VecState) (repo_path : String)
    (file_path : String) : VecState :=
  let collection := collection_name repo_path
  match VecState.find vs collection with
  | none => vs
  | some c =>
    VecState.set vs collection
      { c with points := c.points.filter (fun p => decide (p.payload.file_path ≠ file_path)) }

deriving instance DecidableEq for Except

/-- SearchHit. -/
structure SearchHit where
  chunk_id : String
  score : ℚ
  payload : VecPayload
deriving DecidableEq

/-- Dot product (the cosine similarity of the stored normalised
vectors). -/
def dotProduct (a b : List ℚ) : ℚ :=
  ((a.zip b).map (fun p => p.1 * p.2)).sum

/-- QdrantVectorStore.search: empty on a missing collection, an
INDEX_DIMENSION_MISMATCH error carrying both dimensions when the stored
dimension differs from the query dimension, otherwise the top-limit
points by score with chunk_id from payload (falling back to the point
id). -/
def search (vs : VecState) (repo_path : String) (query_vector : List ℚ)
    (limit : Nat) : Except AinavError (List SearchHit) :=
  let collection := collection_name repo_path
  match VecState.find vs collection with
  | none => .ok []
  | some c =>
    let expected_size := query_vector.length
    if c.dim ≠ expected_size then
      .error
        { code := "INDEX_DIMENSION_MISMATCH"
          message := "Indexed vectors are incompatible with current embedding model (index_dim=" ++
            toString c.dim ++ ", model_dim=" ++ toString expected_size ++
            "). Run `xtrc index <repo> --rebuild`."
          status_code := 409
          details := [("index_dim", (c.dim : Int)), ("model_dim", (expected_size : Int))] }
    else
      let scored := c.points.map (fun p =>
        ({ chunk_id := p.payload.chunk_id.getD p.id
           score := dotProduct query_vector p.vector
           payload := p.payload } : SearchHit))
      let ranked := List.insertionSort (fun a b : SearchHit => b.score ≤ a.score) scored
      .ok (ranked.take limit)

/-- QdrantVectorStore.count_chunks. -/
def count_chunks (vs : VecState) (repo_path : String) : Nat :=
  match VecState.find vs (collection_name repo_path) with
  | none => 0
  | some c => c.points.length

/-! ## Metadata store (src/xtrc/core/metadata_store.py)

The relational tables are lists of rows; upserts replace in place or
append, deletes filter, matching the keyed SQL semantics. -/

/-- A row of the files table. -/
structure FileRow where
  repo_path : String
  file_path : String
  content_hash : String
  last_indexed_at : String
deriving DecidableEq

/-- A row of the embeddings table. -/
structure EmbRow where
  content_hash : String
  dimension : Nat
  vector : List ℚ
  updated_at : String
deriving DecidableEq

/-- A row of the llm_summaries table. -/
structure SummaryRow where
  summary_key : String
  model : String
  summary : String
  updated_at : String
deriving DecidableEq

/-- The metadata-store state. -/
structure MetaState where
  files : List FileRow
  chunks : List CodeChunk
  embeddings : List EmbRow
  repo_meta : List (String × String)
  llm_summaries : List SummaryRow
deriving DecidableEq

/-- MetadataStore.clear_repo: delete the repo's files, chunks and
repo_meta; embeddings and summaries kept. -/
def MetadataStore.clear_repo (ms : MetaState) (repo_path : String) : MetaState :=
  { ms with
    files := ms.files.filter (fun r => decide (r.repo_path ≠ repo_path))
    chunks := ms.chunks.filter (fun c => decide (c.repo_path ≠ repo_path))
    repo_meta := ms.repo_meta.filter (fun p => decide (p.1 ≠ repo_path)) }

/-- MetadataStore.get_file_hashes as an association list. -/
def MetadataStore.get_file_hashes (ms : MetaState) (repo_path : String) :
    List (String × String) :=
  (ms.files.filter (fun r => decide (r.repo_path = repo_path))).map
    (fun r => (r.file_path, r.content_hash))

/-- Dictionary get on an association list. -/
def assocGet (l : List (String × String)) (key : String) : Option String :=
  (l.find? (fun p => decide (p.1 = key))).map (·.2)

/-- MetadataStore.upsert_file_hash (insert or replace, stamping
last_indexed_at with the current time). -/
def MetadataStore.upsert_file_hash (ms : MetaState) (repo_path file_path content_hash
    now : String) : MetaState :=
  let row : FileRow :=
    { repo_path := repo_path, file_path := file_path,
      content_hash := content_hash, last_indexed_at := now }
  if ms.files.any (fun r => r.repo_path = repo_path ∧ r.file_path = file_path) then
    { ms with files := ms.files.map (fun r =>
        if r.repo_path = repo_path ∧ r.file_path = file_path then row else r) }
  else { ms with files := ms.files ++ [row] }

/-- MetadataStore.delete_files (early return on an empty batch). -/
def MetadataStore.delete_files (ms : MetaState) (repo_path : String)
    (file_paths : List String) : MetaState :=
  if file_paths.isEmpty then ms
  else
    { ms with files := ms.files.filter (fun r =>
        !(decide (r.repo_path = repo_path) && file_paths.contains r.file_path)) }

/-- MetadataStore.get_chunk_ids_for_file. -/
def MetadataStore.get_chunk_ids_for_file (ms : MetaState) (repo_path file_path : String) :
    List String :=
  (ms.chunks.filter (fun c => decide (c.repo_path = repo_path ∧ c.file_path = file_path))).map
    (·.chunk_id)

/-- MetadataStore.delete_chunks_by_file. -/
def MetadataStore.delete_chunks_by_file (ms : MetaState) (repo_path file_path : String) :
    MetaState :=
  { ms with chunks := ms.chunks.filter (fun c =>
      !(decide (c.repo_path = repo_path) && decide (c.file_path = file_path))) }

/-- MetadataStore.delete_chunks_by_ids (early return on an empty
batch). -/
def MetadataStore.delete_chunks_by_ids (ms : MetaState) (chunk_ids : List String) :
    MetaState :=
  if chunk_ids.isEmpty then ms
  else { ms with chunks := ms.chunks.filter (fun c => !chunk_ids.contains c.chunk_id) }

/-- MetadataStore.upsert_chunks: bulk insert-or-replace keyed by
chunk_id. -/
def MetadataStore.upsert_chunks (ms : MetaState) (chunks : List CodeChunk) : MetaState :=
  if chunks.isEmpty then ms
  else
    let upserted := chunks.foldl
      (fun acc chunk =>
        if acc.any (fun c => c.chunk_id = chunk.chunk_id) then
          acc.map (fun c => if c.chunk_id = chunk.chunk_id then chunk else c)
        else acc ++ [chunk])
      ms.chunks
    { ms with chunks := upserted }

/-- MetadataStore.get_chunks_by_ids, read as a dictionary: missing ids
are silently dropped. -/
def MetadataStore.get_chunks_by_ids (ms : MetaState) (chunk_ids : List String)
    (chunk_id : String) : Option CodeChunk :=
  if chunk_ids.contains chunk_id then
    ms.chunks.find? (fun c => decide (c.chunk_id = chunk_id))
  else none

/-- MetadataStore.set_repo_last_indexed. -/
def MetadataStore.set_repo_last_indexed (ms : MetaState) (repo_path now : String) :
    MetaState :=
  if ms.repo_meta.any (fun p => p.1 = repo_path) then
    { ms with repo_meta := ms.repo_meta.map (fun p =>
        if p.1 = repo_path then (repo_path, now) else p) }
  else { ms with repo_meta := ms.repo_meta ++ [(repo_path, now)] }

/-! ## Language detection (src/xtrc/core/repo.py) -/

/-- pathlib Path.suffix: the extension of the final component, empty
when the last dot is leading or trailing. -/
def pathSuffix (p : String) : String :=
  let comp := (splitOnSlash p.data).getLastD []
  let tailAfterDot := comp.reverse.takeWhile (· ≠ '.')
  if tailAfterDot.length = comp.length then ""
  else if comp.length - tailAfterDot.length - 1 = 0 then ""
  else if tailAfterDot.isEmpty then ""
  else String.mk ('.' :: tailAfterDot.reverse)

/-- detect_language: SUPPORTED_EXTENSIONS lookup on the lowercased
suffix. -/
def detect_language (path : String) : Option String :=
  let suffix := lowerStr (pathSuffix path)
  if suffix = ".py" then some "python"
  else if suffix = ".js" then some "javascript"
  else if suffix = ".jsx" then some "javascript"
  else if suffix = ".ts" then some "typescript"
  else if suffix = ".tsx" then some "tsx"
  else none

/-! ## Embedding input (src/xtrc/indexer/summarizer.py,
IndexChunkSummarizer.build_embedding_text) -/

/-- build_embedding_text: the enriched semantic view of a chunk fed to
the embedding model (the raw code is excluded). -/
def build_embedding_text (chunk : CodeChunk) : String :=
  let intent_line :=
    if chunk.intent_tags.isEmpty then "unknown"
    else String.intercalate ", " chunk.intent_tags
  let parts :=
    ["File: " ++ chunk.file_path,
     "Symbol: " ++ (if pyTruthyOpt chunk.symbol then chunk.symbol.getD "" else "-"),
     "Type: " ++ (if pyTruthyOpt chunk.symbol_kind then chunk.symbol_kind.getD "" else "major_block"),
     "Intent: " ++ intent_line,
     "",
     "Summary:",
     if pyTruthyOpt chunk.llm_summary then chunk.llm_summary.getD "" else chunk.description]
  let parts :=
    if pyTruthyOpt chunk.route_method || pyTruthyOpt chunk.route_path then
      parts ++
        ["",
         "HTTP Metadata (if applicable):",
         "Method: " ++ (if pyTruthyOpt chunk.route_method then chunk.route_method.getD "" else "-"),
         "Route: " ++ (if pyTruthyOpt chunk.route_path then chunk.route_path.getD "" else "-")]
    else parts
  pyStrip (String.intercalate "\n" parts)

/-! ## Query engine (src/xtrc/core/query_engine.py)

Injected collaborators appear as oracle arguments: the optional query
rewriter as its returned (candidate_query, changed) pair, the embedding
service as a query → vector function, the optional local reranker with
its sigmoid and predict oracle, and the optional Gemini reranker with
its client oracle. A `none` result models an exception propagating out
of query() (vector-dimension mismatch, strict-zip failure). Wall-clock
durations are 0. -/

/-- The sort key of the ranked-match sort: (adjusted score,
vector_score, has-symbol flag, -tokens). -/
def matchSortKey (m : QueryMatch) : ℚ × ℚ × Nat × Int :=
  (m.score, m.vector_score, if pyTruthyOpt m.chunk.symbol then 1 else 0,
   -(m.chunk.tokens : Int))

/-- Lexicographic ≤ on the 4-part sort key. -/
def key4Le (x y : ℚ × ℚ × Nat × Int) : Bool :=
  decide (x.1 < y.1) ||
  (decide (x.1 = y.1) &&
    (decide (x.2.1 < y.2.1) ||
     (decide (x.2.1 = y.2.1) &&
       (decide (x.2.2.1 < y.2.2.1) ||
        (decide (x.2.2.1 = y.2.2.1) && decide (x.2.2.2 ≤ y.2.2.2))))))

/-- matches.sort(key=..., reverse=True): stable descending sort on the
4-part key. -/
def sortMatches (ms : List QueryMatch) : List QueryMatch :=
  List.insertionSort (fun a b => key4Le (matchSortKey b) (matchSortKey a) = true) ms

/-- QueryEngine.query. -/
def QueryEngine.query (ms : MetaState) (vs : VecState)
    (query_rewriter : Option (String × Bool))
    (local_reranker : Option (LocalReranker × (ℚ → ℚ) × Except String (List ℚ)))
    (ranking_heuristics : Option RankingHeuristics)
    (reranker : Option (GeminiReranker × GeminiClientOracle))
    (embed_query : String → List ℚ)
    (repo_key query_text : String) (top_k : Nat) : Option QueryOutcome :=
  let rw : String × Option String :=
    match query_rewriter with
    | some (candidate_query, changed) =>
      (candidate_query, if changed then some candidate_query else none)
    | none => (query_text, none)
  match rw with
  | (query_for_search, rewritten_query0) =>
    let query_embedding := embed_query query_for_search
    let candidate_limit := max (top_k * 12) top_k
    match search vs repo_key query_embedding candidate_limit with
    | .error _ => none
    | .ok hits =>
      let chunk_ids := hits.map (·.chunk_id)
      let chunkOf := MetadataStore.get_chunks_by_ids ms chunk_ids
      let matches0 : List QueryMatch := hits.filterMap (fun hit =>
        match chunkOf hit.chunk_id with
        | none => none
        | some chunk =>
          let parts := hybrid_score query_for_search hit.score chunk.keywords
            chunk.symbol_terms chunk.route_intent chunk.route_method
            chunk.route_resource (some chunk.structural_terms)
          let explanation_bits :=
            ["semantic=" ++ pyFormatF 3 parts.normalized_vector,
             "keyword=" ++ pyFormatF 3 parts.keyword_score,
             "symbol=" ++ pyFormatF 3 parts.symbol_score,
             "intent=" ++ pyFormatF 3 parts.intent_score,
             "structural=" ++ pyFormatF 3 parts.structural_score]
          let heur : ℚ × List String × List String × List String :=
            match ranking_heuristics with
            | some h =>
              let decision := RankingHeuristics.evaluate h query_for_search chunk
              (parts.total * decision.multiplier, decision.matched_intents,
               decision.matched_keywords,
               if !decision.reasons.isEmpty then
                 explanation_bits ++
                   ["heuristics=" ++ String.intercalate ", " decision.reasons]
               else explanation_bits)
            | none => (parts.total, [], [], explanation_bits)
          match heur with
          | (adjusted_total, matched_intents, matched_keywords, bits) =>
            some
              { chunk := chunk
                score := adjusted_total
                vector_score := parts.normalized_vector
                keyword_score := parts.keyword_score
                symbol_score := parts.symbol_score
                intent_score := parts.intent_score
                structural_score := parts.structural_score
                matched_intents := matched_intents
                matched_keywords := matched_keywords
                explanation := String.intercalate "; " bits })
      let sorted := sortMatches matches0
      let afterLocal : Option (List QueryMatch) :=
        match local_reranker with
        | some (lr, sigmoid, predict_result) =>
          if !sorted.isEmpty then
            match LocalReranker.rerank lr sigmoid predict_result query_for_search
                (sorted.take 10) with
            | none => none
            | some (reranked, _, _) =>
              if sorted.length > 10 then some (reranked ++ sorted.drop 10)
              else some reranked
          else some sorted
        | none => some sorted
      match afterLocal with
      | none => none
      | some finalMatches =>
        let sel : Option QuerySelection × Bool × Option String × Option Nat × Option String :=
          if !finalMatches.isEmpty then
            match reranker with
            | none =>
              match finalMatches with
              | top :: _ =>
                (some { file := top.chunk.file_path
                        line := top.chunk.start_line
                        reason := "Gemini reranker is disabled; returning highest scoring semantic result."
                        source := "vector" },
                 false, none, none, rewritten_query0)
              | [] => (none, false, none, none, rewritten_query0)
            | some (r, client) =>
              match (GeminiReranker.decide r client query_for_search finalMatches).1 with
              | some decision =>
                (some decision.selection, decision.used_gemini, decision.gemini_model,
                 decision.gemini_latency_ms,
                 if (decision.rewritten_query.getD "") ≠ "" then decision.rewritten_query
                 else rewritten_query0)
              | none => (none, false, none, none, rewritten_query0)
          else (none, false, none, none, rewritten_query0)
        match sel with
        | (selection, used_gemini, gemini_model, gemini_latency_ms, rewritten_query) =>
          some
            { «matches» := finalMatches.take top_k
              duration_ms := 0
              selection := selection
              used_gemini := used_gemini
              gemini_model := gemini_model
              gemini_latency_ms := gemini_latency_ms
              rewritten_query := rewritten_query }

/-! ## Incremental indexer (src/xtrc/core/indexer.py)

The filesystem walk is an oracle input: the list of (relative path,
content) pairs the walk yields, `none` content standing for an
unreadable file (OSError). The parser, embedding service and optional
summarizer are injected exactly as constructor dependencies; the
embedding service is a state transformer over the metadata store since
it owns the persistent embedding cache. A `none` result models an
uncaught exception. The clock is the `now` argument; durations are
modelled as 0. -/

/-- The injected collaborators of Indexer. -/
structure IndexerDeps where
  parse_symbols : String → String → String → List SymbolBlock
  dimension : Nat
  embed_documents : List String → MetaState → List (List ℚ) × MetaState
  chunk_summarizer : Option (List CodeChunk → MetaState → List CodeChunk × MetaState)

/-- The body of the indexer scan loop over one walked file: collect the
path when the language is detected, and queue the file as changed unless
the stored hash matches. -/
def Indexer.scanStep (known_hashes : List (String × String)) (rebuild : Bool)
    (acc : List String × List (String × String × String × String))
    (entry : String × Option String) :
    List String × List (String × String × String × String) :=
  match detect_language entry.1 with
  | none => acc
  | some language =>
    let current_paths := acc.1 ++ [entry.1]
    match entry.2 with
    | none => (current_paths, acc.2)
    | some text =>
      let file_hash := sha256_text text
      if !rebuild && assocGet known_hashes entry.1 = some file_hash then
        (current_paths, acc.2)
      else (current_paths, acc.2 ++ [(entry.1, language, text, file_hash)])

/-- The indexer scan loop: the collected current paths and the queued
changed files. -/
def Indexer.scan (known_hashes : List (String × String)) (rebuild : Bool)
    (fs : List (String × Option String)) :
    List String × List (String × String × String × String) :=
  fs.foldl (Indexer.scanStep known_hashes rebuild) ([], [])

/-- Indexer.index. -/
def Indexer.index (deps : IndexerDeps) (cb : ChunkBuilder)
    (fs : List (String × Option String)) (repo_key : String) (rebuild : Bool)
    (now : String) (meta : MetaState) (vec : VecState) :
    Option (IndexStats × MetaState × VecState) :=
  let files_scanned := fs.length
  let vector_size := deps.dimension
  let st0 : Bool × MetaState × VecState :=
    if rebuild then
      (true, MetadataStore.clear_repo meta repo_key,
       (ensure_collection vec repo_key vector_size true).2)
    else
      match ensure_collection vec repo_key vector_size false with
      | (recreated, vec1) =>
        if recreated then (true, MetadataStore.clear_repo meta repo_key, vec1)
        else (false, meta, vec1)
  match st0 with
  | (rebuild, meta, vec) =>
    let known_hashes := MetadataStore.get_file_hashes meta repo_key
    match Indexer.scan known_hashes rebuild fs with
    | (current_paths, changed_files) =>
      let deleted_files :=
        sortStrings ((known_hashes.map (·.1)).filter (fun p => !current_paths.contains p))
      let delSt : VecState × MetaState :=
        deleted_files.foldl
          (fun st rel =>
            (VectorStore.delete_file_chunks st.1 repo_key rel,
             MetadataStore.delete_chunks_by_file st.2 repo_key rel))
          (vec, meta)
      match delSt with
      | (vec, meta) =>
        let meta := MetadataStore.delete_files meta repo_key deleted_files
        let loop : Option (MetaState × VecState × Nat × Nat) :=
          changed_files.foldl
            (fun st entry =>
              match st with
              | none => none
              | some (meta, vec, files_indexed, chunks_indexed) =>
                match entry with
                | (rel, language, text, file_hash) =>
                  let old_chunk_ids := MetadataStore.get_chunk_ids_for_file meta repo_key rel
                  let vec :=
                    if !old_chunk_ids.isEmpty then
                      VectorStore.delete_chunk_ids vec repo_key old_chunk_ids
                    else vec
                  let meta :=
                    if !old_chunk_ids.isEmpty then
                      MetadataStore.delete_chunks_by_ids meta old_chunk_ids
                    else meta
                  let symbols := deps.parse_symbols rel language text
                  let chunks := build_chunks cb repo_key rel language file_hash text symbols
                  if chunks.isEmpty then
                    some (MetadataStore.upsert_file_hash meta repo_key rel file_hash now,
                          vec, files_indexed + 1, chunks_indexed)
                  else
                    let summarized : List CodeChunk × MetaState :=
                      match deps.chunk_summarizer with
                      | some summarize => summarize chunks meta
                      | none => (chunks, meta)
                    match summarized with
                    | (chunks, meta) =>
                      let embedding_input := chunks.map build_embedding_text
                      match deps.embed_documents embedding_input meta with
                      | (vectors, meta) =>
                        match VectorStore.upsert_chunks vec repo_key chunks vectors with
                        | none => none
                        | some vec =>
                          let meta := MetadataStore.upsert_chunks meta chunks
                          let meta :=
                            MetadataStore.upsert_file_hash meta repo_key rel file_hash now
                          some (meta, vec, files_indexed + 1,
                                chunks_indexed + chunks.length))
            (some (meta, vec, 0, 0))
        match loop with
        | none => none
        | some (meta, vec, files_indexed, chunks_indexed) =>
          let meta := MetadataStore.set_repo_last_indexed meta repo_key now
          some
            ({ repo_path := repo_key
               files_scanned := files_scanned
               files_indexed := files_indexed
               files_deleted := deleted_files.length
               chunks_indexed := chunks_indexed
               duration_ms := 0 }, meta, vec)

/-! ## Concrete scenario fixtures -/

/-- Does the first match dominate: its score is ≥ every other returned
score? -/
def topScoreDominatesB : List QueryMatch → Bool
  | [] => true
  | m0 :: rest => rest.all (fun m => decide (m.score ≤ m0.score))

/-- A chunk of the local-reranker scenario: twelve identical chunks
whose hybrid total is 0.68 against the query "alpha beta". -/
def c2_chunk (i : Nat) : CodeChunk :=
  { chunk_id := "c" ++ toString i
    repo_path := "/r"
    file_path := "f" ++ toString i ++ ".py"
    language := "python"
    start_line := 1
    end_line := 2
    symbol := none
    symbol_kind := none
    description := "d"
    text := "t"
    content_hash := "h"
    tokens := 5
    keywords := ["alpha", "beta"]
    symbol_terms := [] }

/-- Metadata store holding the twelve chunks. -/
def c2_meta : MetaState :=
  { files := [], chunks := (List.range 12).map c2_chunk, embeddings := [],
    repo_meta := [], llm_summaries := [] }

/-- Vector store holding one unit vector per chunk (all cosine 1 against
the query vector). -/
def c2_vec : VecState :=
  [(collection_name "/r",
    { dim := 2
      points := (List.range 12).map (fun i =>
        { id := "p" ++ toString i, vector := [1, 0], payload := chunkPayload (c2_chunk i) }) })]

/-- A local reranker whose cross-encoder returns raw score 0 for each of
the ten window candidates; sigmoid 0 = 1/2 exactly, so the oracle
sigmoid is the constant 1/2. -/
def c2_local : LocalReranker × (ℚ → ℚ) × Except String (List ℚ) :=
  (LocalReranker.make true "cross-encoder/ms-marco-MiniLM-L-6-v2" 10 2,
   fun _ => 1 / 2, Except.ok (List.replicate 10 0))

/-- The full query run of the scenario: local reranker enabled, twelve
equal-scored candidates, top_k 11. -/
def c2_query_run : Option QueryOutcome :=
  QueryEngine.query c2_meta c2_vec none (some c2_local) none none
    (fun _ => [1, 0]) "/r" "alpha beta" 11

/-- A single low-confidence match for the successful-rerank scenario. -/
def c6_match : QueryMatch :=
  { chunk :=
      { chunk_id := "c6", repo_path := "/r", file_path := "x.py", language := "python",
        start_line := 10, end_line := 20, symbol := none, symbol_kind := none,
        description := "d", text := "t", content_hash := "h", tokens := 5,
        keywords := [], symbol_terms := [] }
    vector_score := 2 / 5
    keyword_score := 0
    symbol_score := 0
    score := 2 / 5 }

/-- A client returning a well-formed selection inside the candidate
range. -/
def c6_client : GeminiClientOracle :=
  { rewrite_result := Except.error "unused"
    complete_result :=
      Except.ok ({ file := some (PyVal.pstr "x.py"), line := some (PyVal.pint 12),
                   reason := some (PyVal.pstr "best") }, 42) }

/-- A successful LLM rerank run. -/
def c6_run : Option RerankDecision × Nat :=
  GeminiReranker.decide (GeminiReranker.make "gm" 0.85 false 10) c6_client "q" [c6_match]

/-- Indexer collaborators for the idempotence scenario: a parser finding
no symbols and an embedding service that is never invoked. -/
def c8_deps : IndexerDeps :=
  { parse_symbols := fun _ _ _ => []
    dimension := 2
    embed_documents := fun _ ms => ([], ms)
    chunk_summarizer := none }

/-- Default chunk-builder configuration. -/
def c8_cb : ChunkBuilder := {}

/-- The walk of the unchanged repository: one python file. -/
def c8_fs : List (String × Option String) := [("a.py", some "x = 1\n")]

/-- The metadata store after a first indexing run at time t1: the stored
hash matches the file content. -/
def c8_meta : MetaState :=
  { files := [{ repo_path := "/repo8", file_path := "a.py",
                content_hash := sha256_text "x = 1\n", last_indexed_at := "t1" }]
    chunks := []
    embeddings := []
    repo_meta := [("/repo8", "t1")]
    llm_summaries := [] }

/-- The vector store with the repository collection at the model
dimension. -/
def c8_vec : VecState := [(collection_name "/repo8", { dim := 2, points := [] })]

/-- A lower-scoring candidate of the same file as c6_match, for the
snap-to-best scenario. -/
def c4_low : QueryMatch :=
  { chunk :=
      { chunk_id := "c4", repo_path := "/r", file_path := "x.py", language := "python",
        start_line := 30, end_line := 40, symbol := none, symbol_kind := none,
        description := "d", text := "t", content_hash := "h", tokens := 5,
        keywords := [], symbol_terms := [] }
    vector_score := 1 / 5
    keyword_score := 0
    symbol_score := 0
    score := 1 / 5 }

/-- A client naming a file that is not among the candidates. -/
def c4_client : GeminiClientOracle :=
  { rewrite_result := Except.error "unused"
    complete_result :=
      Except.ok ({ file := some (PyVal.pstr "nope.py"), line := some (PyVal.pint 12),
                   reason := some (PyVal.pstr "best") }, 42) }

/-- A two-dimensional collection holding one point, for the search
scenarios. -/
def vc9 : VecCollection :=
  { dim := 2
    points := [{ id := "pid", vector := [1, 0], payload := chunkPayload c4_low.chunk }] }

/-- A vector-store state holding vc9 under the collection of repo
"/r9". -/
def vs9 : VecState := [(collection_name "/r9", vc9)]

/-- The hit the search scenario returns. -/
def hit9 : SearchHit :=
  { chunk_id := "c4", score := 1, payload := chunkPayload c4_low.chunk }

/-- The relative paths the indexer scan collects: files with a
detectable language, readable or not. -/
def scanPaths (fs : List (String × Option String)) : List String :=
  fs.filterMap (fun e => if (detect_language e.1).isSome then some e.1 else none)

/-! ## General lemmas -/

/-- Membership in a sorted set is membership in the underlying list. -/
theorem mem_sortedSet {a : String} {l : List String} : a ∈ sortedSet l ↔ a ∈ l := by
  unfold sortedSet sortStrings
  rw [(List.perm_insertionSort _ _).mem_iff, List.mem_dedup]

/-- Membership in a conditional list contribution. -/
theorem mem_if_list {α} {c : Prop} [Decidable c] {a : α} {l : List α} :
    a ∈ (if c then l else []) ↔ c ∧ a ∈ l := by
  split <;> simp [*]

/-- The Boolean lexicographic key order unfolded. -/
theorem key4Le_iff (x y : ℚ × ℚ × Nat × Int) :
    key4Le x y = true ↔
      (x.1 < y.1 ∨ (x.1 = y.1 ∧ (x.2.1 < y.2.1 ∨ (x.2.1 = y.2.1 ∧
        (x.2.2.1 < y.2.2.1 ∨ (x.2.2.1 = y.2.2.1 ∧ x.2.2.2 ≤ y.2.2.2)))))) := by
  simp [key4Le]

/-- Totality of the key order. -/
theorem key4Le_total (x y : ℚ × ℚ × Nat × Int) : key4Le x y = true ∨ key4Le y x = true := by
  rw [key4Le_iff, key4Le_iff]
  rcases lt_trichotomy x.1 y.1 with h1 | h1 | h1
  · exact Or.inl (Or.inl h1)
  · rcases lt_trichotomy x.2.1 y.2.1 with h2 | h2 | h2
    · exact Or.inl (Or.inr ⟨h1, Or.inl h2⟩)
    · rcases lt_trichotomy x.2.2.1 y.2.2.1 with h3 | h3 | h3
      · exact Or.inl (Or.inr ⟨h1, Or.inr ⟨h2, Or.inl h3⟩⟩)
      · rcases le_total x.2.2.2 y.2.2.2 with h4 | h4
        · exact Or.inl (Or.inr ⟨h1, Or.inr ⟨h2, Or.inr ⟨h3, h4⟩⟩⟩)
        · exact Or.inr (Or.inr ⟨h1.symm, Or.inr ⟨h2.symm, Or.inr ⟨h3.symm, h4⟩⟩⟩)
      · exact Or.inr (Or.inr ⟨h1.symm, Or.inr ⟨h2.symm, Or.inl h3⟩⟩)
    · exact Or.inr (Or.inr ⟨h1.symm, Or.inl h2⟩)
  · exact Or.inr (Or.inl h1)

/-- Transitivity of the key order. -/
theorem key4Le_trans {x y z : ℚ × ℚ × Nat × Int}
    (hxy : key4Le x y = true) (hyz : key4Le y z = true) : key4Le x z = true := by
  rw [key4Le_iff] at hxy hyz ⊢
  obtain h1 | ⟨e1, h1'⟩ := hxy
  · obtain g1 | ⟨f1, _⟩ := hyz
    · exact Or.inl (h1.trans g1)
    · exact Or.inl (f1 ▸ h1)
  · obtain g1 | ⟨f1, g1'⟩ := hyz
    · exact Or.inl (e1 ▸ g1)
    · refine Or.inr ⟨e1.trans f1, ?_⟩
      obtain h2 | ⟨e2, h2'⟩ := h1'
      · obtain g2 | ⟨f2, _⟩ := g1'
        · exact Or.inl (h2.trans g2)
        · exact Or.inl (f2 ▸ h2)
      · obtain g2 | ⟨f2, g2'⟩ := g1'
        · exact Or.inl (e2 ▸ g2)
        · refine Or.inr ⟨e2.trans f2, ?_⟩
          obtain h3 | ⟨e3, h3'⟩ := h2'
          · obtain g3 | ⟨f3, _⟩ := g2'
            · exact Or.inl (h3.trans g3)
            · exact Or.inl (f3 ▸ h3)
          · obtain g3 | ⟨f3, g3'⟩ := g2'
            · exact Or.inl (e3 ▸ g3)
            · exact Or.inr ⟨e3.trans f3, h3'.trans g3'⟩

/-- The first component of the key order is score order. -/
theorem key4Le_fst {x y : ℚ × ℚ × Nat × Int} (h : key4Le x y = true) : x.1 ≤ y.1 := by
  rw [key4Le_iff] at h
  obtain h | ⟨e, _⟩ := h
  · exact le_of_lt h
  · exact le_of_eq e

/-- sortMatches yields a list pairwise ordered by the descending key
relation. -/
theorem sortMatches_pairwise (l : List QueryMatch) :
    (sortMatches l).Pairwise
      (fun a b => key4Le (matchSortKey b) (matchSortKey a) = true) := by
  unfold sortMatches
  have tot : IsTotal QueryMatch
      (fun a b => key4Le (matchSortKey b) (matchSortKey a) = true) :=
    ⟨fun a b => (key4Le_total (matchSortKey b) (matchSortKey a)).elim Or.inl Or.inr⟩
  have trn : IsTrans QueryMatch
      (fun a b => key4Le (matchSortKey b) (matchSortKey a) = true) :=
    ⟨fun _ _ _ hab hbc => key4Le_trans hbc hab⟩
  exact @List.sorted_insertionSort _ _ _ tot trn l

/-- Pairwise key ordering forces the first score to dominate. -/
theorem topDominatesB_of_pairwise {l : List QueryMatch}
    (h : l.Pairwise (fun a b => key4Le (matchSortKey b) (matchSortKey a) = true)) :
    topScoreDominatesB l = true := by
  cases l with
  | nil => rfl
  | cons m0 rest =>
    unfold topScoreDominatesB
    rw [List.all_eq_true]
    intro m hm
    have hk := (List.pairwise_cons.mp h).1 m hm
    have : (matchSortKey m).1 ≤ (matchSortKey m0).1 := key4Le_fst hk
    simpa [matchSortKey] using this

/-- A needle matches at the front of itself followed by anything. -/
theorem matchesAt_self_append (n rest : List Char) : matchesAt n (n ++ rest) = true := by
  induction n with
  | nil => rfl
  | cons c cs ih => simp [matchesAt, ih]

/-- A needle is found in any haystack of the form pre ++ needle ++
post. -/
theorem hasSub_surround (n : List Char) :
    ∀ pre post : List Char, hasSub n (pre ++ (n ++ post)) = true := by
  intro pre post
  induction pre with
  | nil =>
    cases n with
    | nil => cases post <;> simp [hasSub, matchesAt]
    | cons c cs =>
      have hm := matchesAt_self_append (c :: cs) post
      rw [List.cons_append] at hm
      show hasSub (c :: cs) ((c :: cs) ++ post) = true
      rw [List.cons_append]
      simp [hasSub, hm]
  | cons c pre ih =>
    rw [List.cons_append]
    simp [hasSub]
    right
    exact ih

/-- Python `needle in pre ++ needle ++ post`. -/
theorem strContains_surround (pre needle post : String) :
    strContains (pre ++ needle ++ post) needle = true := by
  unfold strContains
  have h : (pre ++ needle ++ post).data = pre.data ++ (needle.data ++ post.data) := by
    simp
  rw [h]
  exact hasSub_surround _ _ _

/-- The values of HTTP_INTENT_MAP. -/
theorem HTTP_INTENT_MAP_values {m i : String} (h : HTTP_INTENT_MAP m = some i) :
    i = "create" ∨ i = "update" ∨ i = "delete" ∨ i = "read" := by
  unfold HTTP_INTENT_MAP at h
  split_ifs at h <;> simp_all

/-- Any extracted route signal carries one of the four CRUD intents. -/
theorem extract_route_signal_intent {t : String} {s : Option String} {sig : RouteSignal}
    (h : extract_route_signal t s = some sig) :
    sig.intent = "create" ∨ sig.intent = "update" ∨ sig.intent = "delete" ∨
      sig.intent = "read" := by
  unfold extract_route_signal at h
  rcases hjs : jsRouteSearch t.data with _ | ⟨m, p⟩ <;> simp only [hjs] at h
  case some =>
    rcases hmap : HTTP_INTENT_MAP m with _ | intent
    · simp [hmap] at h
    · simp only [hmap] at h
      injection h with h2
      subst h2
      exact HTTP_INTENT_MAP_values hmap
  case none =>
    rcases hpy : pyRouteSearch t.data with _ | ⟨m, p⟩ <;> simp only [hpy] at h
    case some =>
      rcases hmap : HTTP_INTENT_MAP m with _ | intent
      · simp [hmap] at h
      · simp only [hmap] at h
        injection h with h2
        subst h2
        exact HTTP_INTENT_MAP_values hmap
    case none =>
      rcases hg : genericMethodSearch none t.data with _ | m <;> simp only [hg] at h
      case none => cases h
      case some =>
        rcases hmap : HTTP_INTENT_MAP m with _ | intent
        · simp [hmap] at h
        · simp only [hmap] at h
          injection h with h2
          subst h2
          exact HTTP_INTENT_MAP_values hmap

/-- The heuristics multiplier is positive whenever the three knobs
are. -/
theorem evaluate_multiplier_pos (h : RankingHeuristics) (h1 : 0 < h.route_boost)
    (h2 : 0 < h.noise_penalty) (h3 : 0 < h.intent_boost) (q : String) (c : CodeChunk) :
    0 < (RankingHeuristics.evaluate h q c).multiplier := by
  unfold RankingHeuristics.evaluate
  dsimp only
  split_ifs <;> positivity

/-- C1: HybridScorer.score returns a total equal to
0.50·normalized_vector + 0.18·keyword + 0.12·symbol + 0.12·intent +
0.08·structural; keyword_score (and symbol_score) is the query/term
overlap ratio, 0 when either side is empty; and the concrete
"get user score" example evaluates to
(0.5·0.5 + 0.18 + 0.12, 0.5, 1.0, 1.0, 0.0, 0.0). -/
theorem C1_hybrid_scorer_blend :
    (∀ (q : String) (v : ℚ) (kw st : List String) (ri rm rr : Option String)
        (sterms : Option (List String)),
      (hybrid_score q v kw st ri rm rr sterms).total =
        0.50 * (hybrid_score q v kw st ri rm rr sterms).normalized_vector
        + 0.18 * (hybrid_score q v kw st ri rm rr sterms).keyword_score
        + 0.12 * (hybrid_score q v kw st ri rm rr sterms).symbol_score
        + 0.12 * (hybrid_score q v kw st ri rm rr sterms).intent_score
        + 0.08 * (hybrid_score q v kw st ri rm rr sterms).structural_score
      ∧ (hybrid_score q v kw st ri rm rr sterms).keyword_score =
          overlap_score (normalize_terms q) kw
      ∧ (hybrid_score q v kw st ri rm rr sterms).symbol_score =
          overlap_score (normalize_terms q) st)
    ∧ (∀ qs cs : List String, qs = [] ∨ cs = [] → overlap_score qs cs = 0)
    ∧ (∀ qs cs : List String, qs ≠ [] → cs ≠ [] →
        overlap_score qs cs =
          ((qs.dedup.filter (fun t => cs.contains t)).length : ℚ) /
            ((qs.dedup.length : Nat) : ℚ))
    ∧ hybrid_score "get user score" 0.5 ["get", "user", "score"] ["get", "user", "score"]
        none none none none =
      { total := 0.5 * 0.5 + 0.18 + 0.12
        normalized_vector := 0.5
        keyword_score := 1.0
        symbol_score := 1.0
        intent_score := 0.0
        structural_score := 0.0 } := by
  refine ⟨fun q v kw st ri rm rr sterms => ⟨rfl, rfl, rfl⟩, ?_, ?_, by decide!⟩
  · rintro qs cs (rfl | rfl) <;> simp [overlap_score]
  · intro qs cs h1 h2
    simp [overlap_score, h1, h2]

/-- Witness for C1: the empty-side zero case and the ratio formula,
each at a concrete input. -/
theorem C1_hybrid_scorer_blend_witness :
    overlap_score [] ["alpha"] = 0 ∧
    overlap_score ["alpha", "beta"] ["beta"] =
      (((["alpha", "beta"].dedup.filter (fun t => ["beta"].contains t)).length : ℚ) /
        (((["alpha", "beta"].dedup.length : Nat)) : ℚ)) :=
  ⟨C1_hybrid_scorer_blend.2.1 [] ["alpha"] (Or.inl rfl),
   C1_hybrid_scorer_blend.2.2.1 ["alpha", "beta"] ["beta"] (by decide) (by decide)⟩

/-- C10: the RankingHeuristics constructor clamps each knob to at
least 0.1 (even when configured zero or negative) and the multiplier
RankingHeuristics.evaluate returns is strictly positive on every query
and chunk, so a heuristic adjustment can never zero out or negate a
score. -/
theorem C10_heuristics_multiplier_positive :
    ∀ (rb np ib : ℚ) (q : String) (chunk : CodeChunk),
      (0.1 : ℚ) ≤ (RankingHeuristics.make rb np ib).route_boost ∧
      (0.1 : ℚ) ≤ (RankingHeuristics.make rb np ib).noise_penalty ∧
      (0.1 : ℚ) ≤ (RankingHeuristics.make rb np ib).intent_boost ∧
      0 < (RankingHeuristics.evaluate (RankingHeuristics.make rb np ib) q chunk).multiplier := by
  intro rb np ib q chunk
  have hb : (0 : ℚ) < 0.1 := by norm_num
  refine ⟨le_max_left _ _, le_max_left _ _, le_max_left _ _, ?_⟩
  exact evaluate_multiplier_pos _
    (lt_of_lt_of_le hb (le_max_left _ _))
    (lt_of_lt_of_le hb (le_max_left _ _))
    (lt_of_lt_of_le hb (le_max_left _ _)) q chunk

/-- C5 counterexample: a chunk with symbol_kind = "route" whose text
yields no route signal does not carry the route_handler intent tag (it
only sets the separate is_route_handler flag), contradicting the claim
that the tag follows symbol_kind = "route". -/
theorem C5_route_tag_counterexample :
    extract_route_signal "hello" none = none ∧
    "route_handler" ∉ (extract_intent_metadata "a.js" (some "route") none "hello").intent_tags ∧
    (extract_intent_metadata "a.js" (some "route") none "hello").is_route_handler = true := by
  exact ⟨by decide!, by decide!, by decide!⟩

/-- C5 amended: the route_handler intent tag is present exactly when a
route signal is extracted from the text; the symbol_kind = "route" case
instead sets the separate is_route_handler flag, which equals
(signal present OR symbol_kind = "route"). -/
theorem C5_route_tag_amended :
    ∀ (file_path : String) (symbol_kind symbol : Option String) (text : String),
      ("route_handler" ∈ (extract_intent_metadata file_path symbol_kind symbol text).intent_tags
        ↔ (extract_route_signal text symbol).isSome = true) ∧
      (extract_intent_metadata file_path symbol_kind symbol text).is_route_handler =
        ((extract_route_signal text symbol).isSome || decide (symbol_kind = some "route")) := by
  intro fp kind sym text
  refine ⟨?_, ?_⟩
  · rcases hsig : extract_route_signal text sym with _ | sig
    · simp only [extract_intent_metadata, hsig, Option.isSome_none, Bool.false_eq_true,
        iff_false]
      intro hmem
      rw [mem_sortedSet] at hmem
      simp [mem_if_list] at hmem
    · simp only [extract_intent_metadata, hsig, Option.isSome_some, iff_true]
      rw [mem_sortedSet]
      simp
  · rcases hsig : extract_route_signal text sym with _ | sig <;>
      simp [extract_intent_metadata, hsig]

theorem C3_llm_bypass_on_confidence :
    ∀ (r : GeminiReranker) (client : GeminiClientOracle) (q : String)
      (best : QueryMatch) (rest : List QueryMatch),
      r.threshold ≤ best.vector_score →
      ((GeminiReranker.decide r client q (best :: rest)).1.map
          (fun d => (d.selection.file, d.selection.line, d.selection.source, d.used_gemini))) =
        some (best.chunk.file_path, best.chunk.start_line, "vector", false) ∧
      (GeminiReranker.decide r client q (best :: rest)).2 = 0 := by
  intro r client q best rest h
  constructor <;> simp [GeminiReranker.decide, ge_iff_le, h]

theorem C3_llm_bypass_witness :
    ((GeminiReranker.decide (GeminiReranker.make "gm" 0.85 false 10)
        { rewrite_result := Except.error "unused", complete_result := Except.error "unused" }
        "where is score computed"
        [{ chunk := { chunk_id := "w3", repo_path := "/r", file_path := "src/a.py",
                      language := "python", start_line := 10, end_line := 20,
                      symbol := none, symbol_kind := none, description := "d", text := "t",
                      content_hash := "h", tokens := 3, keywords := [], symbol_terms := [] }
           vector_score := 0.93, keyword_score := 0, symbol_score := 0, score := 0.93 }]).1.map
        (fun d => (d.selection.file, d.selection.line, d.selection.source, d.used_gemini))) =
      some ("src/a.py", 10, "vector", false) ∧
    (GeminiReranker.decide (GeminiReranker.make "gm" 0.85 false 10)
        { rewrite_result := Except.error "unused", complete_result := Except.error "unused" }
        "where is score computed"
        [{ chunk := { chunk_id := "w3", repo_path := "/r", file_path := "src/a.py",
                      language := "python", start_line := 10, end_line := 20,
                      symbol := none, symbol_kind := none, description := "d", text := "t",
                      content_hash := "h", tokens := 3, keywords := [], symbol_terms := [] }
           vector_score := 0.93, keyword_score := 0, symbol_score := 0, score := 0.93 }]).2 = 0 :=
  C3_llm_bypass_on_confidence _ _ _ _ _ (by decide!)

theorem selection_from_payload_source {p : RerankPayload} {cands : List QueryMatch}
    {sel : QuerySelection} (h : selection_from_payload p cands = .ok sel) :
    sel.source = "gemini" := by
  unfold selection_from_payload at h
  repeat' split at h
  all_goals try cases h
  all_goals rfl

theorem decide_some_source {r : GeminiReranker} {client : GeminiClientOracle}
    {q : String} {mlist : List QueryMatch} {d : RerankDecision} {n : Nat}
    (h : GeminiReranker.decide r client q mlist = (some d, n)) :
    d.selection.source = (if d.used_gemini then "gemini" else "vector") ∧
    (d.selection.source = "vector" ∨ d.selection.source = "gemini") := by
  unfold GeminiReranker.decide at h
  repeat'
    first
    | split at h
    | dsimp only at h
  all_goals try cases h
  all_goals
    solve
    | constructor <;> simp
    | rename_i hok
      have hs := selection_from_payload_source hok
      constructor <;> simp [hs]

theorem engine_none_selection_vector {ms : MetaState} {vs : VecState}
    {qr : Option (String × Bool)}
    {lr : Option (LocalReranker × (ℚ → ℚ) × Except String (List ℚ))}
    {rh : Option RankingHeuristics} {emb : String → List ℚ}
    {repo q : String} {k : Nat} {out : QueryOutcome} {sel : QuerySelection}
    (h : QueryEngine.query ms vs qr lr rh none emb repo q k = some out)
    (hsel : out.selection = some sel) : sel.source = "vector" := by
  unfold QueryEngine.query at h
  repeat'
    first
    | split at h
    | dsimp only at h
  all_goals try cases h
  all_goals try dsimp only at hsel
  all_goals solve
    | contradiction
    | exact Option.noConfusion hsel
    | injection hsel with h2
      subst h2
      rfl

/-- C6 counterexample: a successful LLM rerank produces a selection whose
source is the string "gemini", not "llm" as the spec states: on the
c6 fixtures the rerank succeeds (used_gemini is true) and the selection
source equals "gemini" and differs from "llm". -/
theorem C6_selection_source_counterexample :
    (c6_run.1.map (fun d =>
      (d.used_gemini, d.selection.source, decide (d.selection.source = "llm")))) =
    some (true, "gemini", false) := by decide!

/-- C6 amended: every QuerySelection produced by the system has source
"vector" or "gemini" (not "llm"): any decision returned by
GeminiReranker.decide carries source "gemini" exactly when used_gemini
is true and "vector" otherwise, and with the Gemini reranker disabled
QueryEngine.query only produces selections with source "vector". -/
theorem C6_selection_source_amended :
    (∀ (r : GeminiReranker) (client : GeminiClientOracle) (q : String)
        (mlist : List QueryMatch),
      ((GeminiReranker.decide r client q mlist).1.all (fun d =>
        decide (d.selection.source = (if d.used_gemini then "gemini" else "vector")) &&
        (decide (d.selection.source = "vector") ||
          decide (d.selection.source = "gemini")))) = true) ∧
    (∀ (ms : MetaState) (vs : VecState) (qr : Option (String × Bool))
        (lr : Option (LocalReranker × (ℚ → ℚ) × Except String (List ℚ)))
        (rh : Option RankingHeuristics) (emb : String → List ℚ)
        (repo q : String) (k : Nat),
      (((QueryEngine.query ms vs qr lr rh none emb repo q k).bind
          (fun o => o.selection)).all (fun s => decide (s.source = "vector"))) = true) := by
  constructor
  · intro r client q mlist
    rcases hd : GeminiReranker.decide r client q mlist with ⟨od, n⟩
    rcases od with _ | d
    · rfl
    · have h := decide_some_source hd
      cases hg : d.used_gemini with
      | true => simp [Option.all, h.1, hg]
      | false => simp [Option.all, h.1, hg]
  · intro ms vs qr lr rh emb repo q k
    rcases hq : QueryEngine.query ms vs qr lr rh none emb repo q k with _ | out
    · rfl
    · rcases hsel : out.selection with _ | sel
      · simp [hsel]
      · have h := engine_none_selection_vector hq hsel
        simp [hsel, h]

/-- C2 counterexample: with the local cross-encoder reranker enabled the
top-ranked match can score strictly below a later match: on the c2
fixtures (twelve equal hybrid totals 0.68, a constant-half sigmoid and
zero cross-encoder logits) the blended head scores 0.626 while the
untouched tail keeps 0.68, so the returned list is not dominated by its
first element. -/
theorem C2_top_score_counterexample :
    (c2_query_run.map (fun o => topScoreDominatesB o.«matches»)) = some false := by
  decide!

/-- C2 amended: without the local cross-encoder reranker (the Gemini
reranker may still be enabled, it never reorders the match list), the
first returned match of every QueryEngine.query outcome scores at least
as high as every other returned match. -/
theorem C2_top_score_dominance_amended :
    ∀ (ms : MetaState) (vs : VecState) (qr : Option (String × Bool))
      (rh : Option RankingHeuristics) (rk : Option (GeminiReranker × GeminiClientOracle))
      (emb : String → List ℚ) (repo q : String) (k : Nat),
    (((QueryEngine.query ms vs qr none rh rk emb repo q k).map
        (fun out => topScoreDominatesB out.«matches»)).getD true) = true := by
  intro ms vs qr rh rk emb repo q k
  rcases hq : QueryEngine.query ms vs qr none rh rk emb repo q k with _ | out
  · rfl
  · show topScoreDominatesB out.«matches» = true
    unfold QueryEngine.query at hq
    repeat'
      first
      | split at hq
      | dsimp only at hq
    all_goals try cases hq
    all_goals dsimp only
    all_goals
      solve
      | contradiction
      | exact topDominatesB_of_pairwise
          (List.Pairwise.sublist (List.take_sublist _ _) (sortMatches_pairwise _))

theorem maxByScore_mem (c0 : QueryMatch) (cs : List QueryMatch) :
    maxByScore c0 cs ∈ c0 :: cs := by
  unfold maxByScore
  induction cs generalizing c0 with
  | nil => simp
  | cons c cs ih =>
    rw [List.foldl_cons]
    rcases List.mem_cons.mp (ih (if c.score > c0.score then c else c0)) with h | h
    · rw [h]
      split
      · simp
      · simp
    · exact List.mem_cons_of_mem _ (List.mem_cons_of_mem _ h)

theorem maxByScore_ge (c0 : QueryMatch) (cs : List QueryMatch) :
    ∀ c2 ∈ c0 :: cs, c2.score ≤ (maxByScore c0 cs).score := by
  unfold maxByScore
  induction cs generalizing c0 with
  | nil =>
    intro c2 h
    rw [List.mem_singleton] at h
    rw [h]
    exact le_refl _
  | cons c cs ih =>
    intro c2 h
    rw [List.foldl_cons]
    have hbase : c0.score ≤ (if c.score > c0.score then c else c0).score ∧
        c.score ≤ (if c.score > c0.score then c else c0).score := by
      by_cases hc : c.score > c0.score
      · rw [if_pos hc]
        exact ⟨le_of_lt hc, le_refl _⟩
      · rw [if_neg hc]
        exact ⟨le_refl _, le_of_not_lt hc⟩
    rcases List.mem_cons.mp h with h1 | h1
    · rw [h1]
      exact le_trans hbase.1 (ih _ _ (List.mem_cons_self _ _))
    rcases List.mem_cons.mp h1 with h2 | h2
    · rw [h2]
      exact le_trans hbase.2 (ih _ _ (List.mem_cons_self _ _))
    · exact ih _ _ (List.mem_cons_of_mem _ h2)

theorem rerank_failed_reason_contains (rest : String) :
    strContains ("Gemini rerank failed (" ++ rest) "rerank failed" = true :=
  strContains_surround "Gemini " "rerank failed" (" (" ++ rest)

/-- C4: payload validation in the reranker. (i) When the LLM names a
file and a line inside the range of the first candidate matching them,
that candidate is selected at the given line. (ii) When candidates of
the named file exist but none contains the line, the selection snaps to
the start_line of the highest-scoring candidate of that file. (iii)
When no candidate has the named file at all, decide falls back to the
top vector candidate with used_gemini false and a reason containing
"rerank failed". -/
theorem C4_payload_validation :
    (∀ (f rs : String) (l : Int) (cands : List QueryMatch) (cand : QueryMatch),
      pyStrip f ≠ "" → l > 0 → pyStrip rs ≠ "" →
      cands.find? (fun item =>
        item.chunk.file_path = f ∧ (item.chunk.start_line : Int) ≤ l ∧
          l ≤ (item.chunk.end_line : Int)) = some cand →
      selection_from_payload
          { file := some (PyVal.pstr f), line := some (PyVal.pint l),
            reason := some (PyVal.pstr rs) } cands =
        Except.ok { file := cand.chunk.file_path, line := l.toNat,
                    reason := pyStrip rs, source := "gemini" }) ∧
    (∀ (f rs : String) (l : Int) (cands : List QueryMatch)
        (c0 : QueryMatch) (cs : List QueryMatch),
      pyStrip f ≠ "" → l > 0 → pyStrip rs ≠ "" →
      cands.find? (fun item =>
        item.chunk.file_path = f ∧ (item.chunk.start_line : Int) ≤ l ∧
          l ≤ (item.chunk.end_line : Int)) = none →
      cands.filter (fun item => item.chunk.file_path = f) = c0 :: cs →
      selection_from_payload
          { file := some (PyVal.pstr f), line := some (PyVal.pint l),
            reason := some (PyVal.pstr rs) } cands =
        Except.ok { file := (maxByScore c0 cs).chunk.file_path,
                    line := (maxByScore c0 cs).chunk.start_line,
                    reason := pyStrip rs, source := "gemini" } ∧
      maxByScore c0 cs ∈ cands.filter (fun item => item.chunk.file_path = f) ∧
      ((cands.filter (fun item => item.chunk.file_path = f)).all
        (fun c2 => decide (c2.score ≤ (maxByScore c0 cs).score))) = true) ∧
    (∀ (r : GeminiReranker) (client : GeminiClientOracle) (q f rs : String)
        (l : Int) (best : QueryMatch) (tail0 : List QueryMatch) (lat : Nat),
      pyStrip f ≠ "" → l > 0 → pyStrip rs ≠ "" →
      ¬ best.vector_score ≥ r.threshold →
      r.enable_rewrite = false →
      client.complete_result =
        Except.ok ({ file := some (PyVal.pstr f), line := some (PyVal.pint l),
                     reason := some (PyVal.pstr rs) }, lat) →
      ((best :: tail0).take r.max_candidates).filter
        (fun item => item.chunk.file_path = f) = [] →
      GeminiReranker.decide r client q (best :: tail0) =
        (some { selection :=
                  { file := best.chunk.file_path
                    line := best.chunk.start_line
                    reason := "Gemini rerank failed (" ++
                      "Gemini selected a file that is not part of the candidate list" ++
                      "); falling back to top vector candidate with score " ++
                      pyFormatF 3 best.vector_score ++ "."
                    source := "vector" }
                used_gemini := false
                gemini_model := some r.model_name
                gemini_latency_ms := if lat = 0 then none else some lat
                rewritten_query := none }, 1) ∧
      strContains ("Gemini rerank failed (" ++
          "Gemini selected a file that is not part of the candidate list" ++
          "); falling back to top vector candidate with score " ++
          pyFormatF 3 best.vector_score ++ ".") "rerank failed" = true) := by
  refine ⟨?_, ?_, ?_⟩
  · intro f rs l cands cand hf hl hrs hfind
    unfold selection_from_payload
    dsimp only
    rw [if_pos hf, if_pos hl, if_pos hrs, hfind]
  · intro f rs l cands c0 cs hf hl hrs hfind hfilter
    refine ⟨?_, ?_, ?_⟩
    · unfold selection_from_payload
      dsimp only
      rw [if_pos hf, if_pos hl, if_pos hrs, hfind, hfilter]
    · rw [hfilter]
      exact maxByScore_mem c0 cs
    · rw [hfilter, List.all_eq_true]
      intro c2 hc2
      exact decide_eq_true (maxByScore_ge c0 cs c2 hc2)
  · intro r client q f rs l best tail0 lat hf hl hrs hth hrw hcomp hfilter
    have hfind : ((best :: tail0).take r.max_candidates).find? (fun item =>
        item.chunk.file_path = f ∧ (item.chunk.start_line : Int) ≤ l ∧
          l ≤ (item.chunk.end_line : Int)) = none := by
      rw [List.find?_eq_none]
      intro x hx
      have hnot := (List.filter_eq_nil_iff.mp hfilter) x hx
      simp only [decide_eq_true_eq] at hnot
      simp only [decide_eq_true_eq]
      intro hand
      exact hnot hand.1
    have hsel : selection_from_payload
        { file := some (PyVal.pstr f), line := some (PyVal.pint l),
          reason := some (PyVal.pstr rs) }
        ((best :: tail0).take r.max_candidates) =
        Except.error "Gemini selected a file that is not part of the candidate list" := by
      unfold selection_from_payload
      dsimp only
      rw [if_pos hf, if_pos hl, if_pos hrs, hfind, hfilter]
    constructor
    · simp only [GeminiReranker.decide]
      rw [if_neg hth, hrw, hcomp]
      dsimp only
      rw [hsel]
      simp
    · exact rerank_failed_reason_contains
        ("Gemini selected a file that is not part of the candidate list" ++
          ("); falling back to top vector candidate with score " ++
            (pyFormatF 3 best.vector_score ++ ".")))


theorem C4_payload_validation_witness :
    (selection_from_payload
        { file := some (PyVal.pstr "x.py"), line := some (PyVal.pint 12),
          reason := some (PyVal.pstr "best") } [c6_match] =
      Except.ok { file := c6_match.chunk.file_path, line := (12 : Int).toNat,
                  reason := pyStrip "best", source := "gemini" }) ∧
    (selection_from_payload
        { file := some (PyVal.pstr "x.py"), line := some (PyVal.pint 25),
          reason := some (PyVal.pstr "best") } [c6_match, c4_low] =
      Except.ok { file := (maxByScore c6_match [c4_low]).chunk.file_path,
                  line := (maxByScore c6_match [c4_low]).chunk.start_line,
                  reason := pyStrip "best", source := "gemini" } ∧
      maxByScore c6_match [c4_low] ∈
        [c6_match, c4_low].filter (fun item => item.chunk.file_path = "x.py") ∧
      (([c6_match, c4_low].filter (fun item => item.chunk.file_path = "x.py")).all
        (fun c2 => decide (c2.score ≤ (maxByScore c6_match [c4_low]).score))) = true) ∧
    (GeminiReranker.decide (GeminiReranker.make "gm" 0.85 false 10) c4_client "q" [c6_match] =
      (some { selection :=
                { file := c6_match.chunk.file_path
                  line := c6_match.chunk.start_line
                  reason := "Gemini rerank failed (" ++
                    "Gemini selected a file that is not part of the candidate list" ++
                    "); falling back to top vector candidate with score " ++
                    pyFormatF 3 c6_match.vector_score ++ "."
                  source := "vector" }
              used_gemini := false
              gemini_model := some (GeminiReranker.make "gm" 0.85 false 10).model_name
              gemini_latency_ms := if (42 : Nat) = 0 then none else some 42
              rewritten_query := none }, 1) ∧
     strContains ("Gemini rerank failed (" ++
        "Gemini selected a file that is not part of the candidate list" ++
        "); falling back to top vector candidate with score " ++
        pyFormatF 3 c6_match.vector_score ++ ".") "rerank failed" = true) :=
  ⟨C4_payload_validation.1 "x.py" "best" 12 [c6_match] c6_match
      (by decide!) (by decide!) (by decide!) (by decide!),
   C4_payload_validation.2.1 "x.py" "best" 25 [c6_match, c4_low] c6_match [c4_low]
      (by decide!) (by decide!) (by decide!) (by decide!) (by decide!),
   C4_payload_validation.2.2 (GeminiReranker.make "gm" 0.85 false 10) c4_client "q"
      "nope.py" "best" 12 c6_match [] 42
      (by decide!) (by decide!) (by decide!) (by decide!) rfl rfl
      (by decide!)⟩

/-- C9: QdrantVectorStore.search returns an empty list when the
collection is missing; fails with INDEX_DIMENSION_MISMATCH carrying both
dimensions in its details when the stored dimension differs from the
query dimension; and otherwise returns hits whose chunk_id, score and
payload each come from a stored point. -/
theorem C9_search_errors :
    (∀ (vs : VecState) (repo : String) (qv : List ℚ) (limit : Nat),
      VecState.find vs (collection_name repo) = none →
      search vs repo qv limit = Except.ok []) ∧
    (∀ (vs : VecState) (repo : String) (qv : List ℚ) (limit : Nat) (c : VecCollection),
      VecState.find vs (collection_name repo) = some c →
      c.dim ≠ qv.length →
      search vs repo qv limit = Except.error
        { code := "INDEX_DIMENSION_MISMATCH"
          message := "Indexed vectors are incompatible with current embedding model (index_dim=" ++
            toString c.dim ++ ", model_dim=" ++ toString qv.length ++
            "). Run `xtrc index <repo> --rebuild`."
          status_code := 409
          details := [("index_dim", (c.dim : Int)), ("model_dim", (qv.length : Int))] }) ∧
    (∀ (vs : VecState) (repo : String) (qv : List ℚ) (limit : Nat) (c : VecCollection)
        (hits : List SearchHit),
      VecState.find vs (collection_name repo) = some c →
      search vs repo qv limit = Except.ok hits →
      (hits.all (fun h2 => c.points.any (fun p =>
        decide (h2.chunk_id = p.payload.chunk_id.getD p.id) &&
        decide (h2.score = dotProduct qv p.vector) &&
        decide (h2.payload = p.payload)))) = true) := by
  refine ⟨?_, ?_, ?_⟩
  · intro vs repo qv limit hfind
    unfold search
    dsimp only
    rw [hfind]
  · intro vs repo qv limit c hfind hne
    unfold search
    dsimp only
    rw [hfind]
    dsimp only
    rw [if_pos hne]
  · intro vs repo qv limit c hits hfind hsearch
    unfold search at hsearch
    dsimp only at hsearch
    rw [hfind] at hsearch
    dsimp only at hsearch
    split at hsearch
    · cases hsearch
    · injection hsearch with hsearch
      subst hsearch
      rw [List.all_eq_true]
      intro h2 hmem
      have hsorted := List.take_subset limit _ hmem
      have hperm := List.perm_insertionSort
        (fun a b : SearchHit => b.score ≤ a.score) (c.points.map (fun p =>
          ({ chunk_id := p.payload.chunk_id.getD p.id
             score := dotProduct qv p.vector
             payload := p.payload } : SearchHit)))
      have hmap := hperm.mem_iff.mp hsorted
      rcases List.mem_map.mp hmap with ⟨p, hp, hEq⟩
      rw [List.any_eq_true]
      refine ⟨p, hp, ?_⟩
      rw [← hEq]
      simp


set_option maxRecDepth 4096 in
theorem C9_search_errors_witness :
    (search vs9 "/other" [1, 0] 5 = Except.ok []) ∧
    (search vs9 "/r9" [1] 5 = Except.error
      { code := "INDEX_DIMENSION_MISMATCH"
        message := "Indexed vectors are incompatible with current embedding model (index_dim=" ++
          toString (2 : Nat) ++ ", model_dim=" ++ toString (1 : Nat) ++
          "). Run `xtrc index <repo> --rebuild`."
        status_code := 409
        details := [("index_dim", (2 : Int)), ("model_dim", (1 : Int))] }) ∧
    (([hit9].all
      (fun h2 => vc9.points.any (fun p =>
        decide (h2.chunk_id = p.payload.chunk_id.getD p.id) &&
        decide (h2.score = dotProduct [1, 0] p.vector) &&
        decide (h2.payload = p.payload)))) = true) :=
  ⟨C9_search_errors.1 vs9 "/other" [1, 0] 5 (by decide!),
   C9_search_errors.2.1 vs9 "/r9" [1] 5 vc9 (by decide!) (by decide),
   C9_search_errors.2.2 vs9 "/r9" [1, 0] 5 vc9 [hit9] (by decide!) (by decide!)⟩

/-- C8 counterexample: on the already-indexed c8 fixtures a second run
indexes 0 files and 0 chunks and leaves the vector store unchanged, but
the metadata store is not identical: the repository last_indexed_at is
restamped with the new clock value. -/
theorem C8_index_idempotence_counterexample :
    (Indexer.index c8_deps c8_cb c8_fs "/repo8" false "t2" c8_meta c8_vec).map
      (fun r => (r.1.files_indexed, r.1.chunks_indexed,
                 decide (r.2.1 = c8_meta), decide (r.2.2 = c8_vec))) =
    some (0, 0, false, true) := by decide!


/-- C8 amended: a rerun of Indexer.index on an unchanged repository
(every walked file with a detectable language carries a stored hash
matching its content, every stored path is still walked with a
detectable language, and the collection already exists at the model
dimension) indexes 0 files and 0 chunks, deletes nothing, leaves the
vector store unchanged, and changes the metadata store only by
restamping the repository last_indexed_at with the current clock. -/
theorem C8_index_idempotence_amended :
    ∀ (deps : IndexerDeps) (cb : ChunkBuilder) (fs : List (String × Option String))
      (repo now : String) (meta : MetaState) (vec : VecState),
    ensure_collection vec repo deps.dimension false = (false, vec) →
    (∀ e ∈ fs, ∀ t : String, e.2 = some t → (detect_language e.1).isSome = true →
      assocGet (MetadataStore.get_file_hashes meta repo) e.1 = some (sha256_text t)) →
    (∀ p ∈ (MetadataStore.get_file_hashes meta repo).map (fun q => q.1),
      ∃ e ∈ fs, e.1 = p ∧ (detect_language e.1).isSome = true) →
    Indexer.index deps cb fs repo false now meta vec =
      some ({ repo_path := repo, files_scanned := fs.length, files_indexed := 0,
              files_deleted := 0, chunks_indexed := 0, duration_ms := 0 },
            MetadataStore.set_repo_last_indexed meta repo now, vec) := by
  intro deps cb fs repo now meta vec hens hh hk
  have hscan : ∀ (fs2 : List (String × Option String)),
      (∀ e ∈ fs2, ∀ t : String, e.2 = some t → (detect_language e.1).isSome = true →
        assocGet (MetadataStore.get_file_hashes meta repo) e.1 = some (sha256_text t)) →
      ∀ (acc1 : List String) (acc2 : List (String × String × String × String)),
      fs2.foldl (Indexer.scanStep (MetadataStore.get_file_hashes meta repo) false)
        (acc1, acc2) = (acc1 ++ scanPaths fs2, acc2) := by
    intro fs2
    induction fs2 with
    | nil =>
      intro h2 acc1 acc2
      simp [scanPaths]
    | cons e fs2 ih =>
      intro h2 acc1 acc2
      rw [List.foldl_cons]
      have ih2 := ih (fun e2 he2 => h2 e2 (List.mem_cons_of_mem _ he2))
      rcases hdl : detect_language e.1 with _ | lang
      · rw [show Indexer.scanStep (MetadataStore.get_file_hashes meta repo) false
            (acc1, acc2) e = (acc1, acc2) from by unfold Indexer.scanStep; rw [hdl]]
        rw [ih2 acc1 acc2]
        simp [scanPaths, hdl]
      · rcases he2 : e.2 with _ | t
        · rw [show Indexer.scanStep (MetadataStore.get_file_hashes meta repo) false
              (acc1, acc2) e = (acc1 ++ [e.1], acc2) from by
            unfold Indexer.scanStep; rw [hdl]; dsimp only; rw [he2]]
          rw [ih2 (acc1 ++ [e.1]) acc2]
          simp [scanPaths, hdl]
        · have hmatch := h2 e (List.mem_cons_self _ _) t he2 (by rw [hdl]; rfl)
          rw [show Indexer.scanStep (MetadataStore.get_file_hashes meta repo) false
              (acc1, acc2) e = (acc1 ++ [e.1], acc2) from by
            unfold Indexer.scanStep
            rw [hdl]
            dsimp only
            rw [he2]
            dsimp only
            rw [if_pos (by simp [hmatch])]]
          rw [ih2 (acc1 ++ [e.1]) acc2]
          simp [scanPaths, hdl]
  have hscanEq : Indexer.scan (MetadataStore.get_file_hashes meta repo) false fs =
      (scanPaths fs, []) := by
    unfold Indexer.scan
    rw [hscan fs hh [] []]
    simp
  have hdel : ((MetadataStore.get_file_hashes meta repo).map (fun q => q.1)).filter
      (fun p => !((scanPaths fs).contains p)) = [] := by
    rw [List.filter_eq_nil_iff]
    intro p hp
    rcases hk p hp with ⟨e, he, hpe, hsome⟩
    have hmem : p ∈ scanPaths fs := by
      unfold scanPaths
      rw [List.mem_filterMap]
      exact ⟨e, he, by rw [hsome]; simp [hpe]⟩
    simp [hmem]
  unfold Indexer.index
  dsimp only
  rw [hens]
  simp only [Bool.false_eq_true, if_false]
  rw [hscanEq]
  dsimp only
  rw [hdel]
  rfl

theorem C8_index_idempotence_amended_witness :
    Indexer.index c8_deps c8_cb c8_fs "/repo8" false "t2" c8_meta c8_vec =
      some ({ repo_path := "/repo8", files_scanned := c8_fs.length, files_indexed := 0,
              files_deleted := 0, chunks_indexed := 0, duration_ms := 0 },
            MetadataStore.set_repo_last_indexed c8_meta "/repo8" "t2", c8_vec) :=
  C8_index_idempotence_amended c8_deps c8_cb c8_fs "/repo8" "t2" c8_meta c8_vec
    (by decide!)
    (by
      intro e he t ht hdl
      simp only [c8_fs, List.mem_singleton] at he
      subst he
      simp only [Option.some.injEq] at ht
      subst ht
      rfl)
    (by
      intro p hp
      simp [MetadataStore.get_file_hashes, c8_meta] at hp
      subst hp
      exact ⟨("a.py", some "x = 1\n"), by simp [c8_fs], rfl, by decide!⟩)

theorem splitLinesLoop_se (cb : ChunkBuilder) (start : Nat) :
    ∀ (lines current : List String) (ct bs idx : Nat),
    ∀ t ∈ splitLinesLoop cb start lines current ct bs idx, t.2.1 ≤ t.2.2 := by
  intro lines
  induction lines with
  | nil =>
    intro current ct bs idx t ht
    unfold splitLinesLoop at ht
    split at ht
    · cases ht
    · rw [List.mem_singleton] at ht
      subst ht
      rename_i hne
      have hlen : 0 < current.length := by
        cases current with
        | nil => exact absurd rfl hne
        | cons a as => exact Nat.succ_pos _
      dsimp only
      omega
  | cons line rest ih =>
    intro current ct bs idx t ht
    unfold splitLinesLoop at ht
    dsimp only at ht
    split at ht
    case isTrue hcond =>
      have hlen : 0 < current.length := by
        cases current with
        | nil => simp at hcond
        | cons a as => exact Nat.succ_pos _
      dsimp only at ht
      split at ht <;>
        (simp only [List.mem_append, List.mem_singleton, List.mem_cons] at ht
         repeat' rcases ht with ht | ht
         all_goals
           first
           | exact ih _ _ _ _ t ht
           | exact absurd ht (List.not_mem_nil t)
           | (try dsimp only
              try simp only [List.length_cons, List.length_nil]
              omega))
    case isFalse hcond =>
      dsimp only at ht
      split at ht <;>
        (simp only [List.nil_append, List.mem_cons] at ht
         repeat' rcases ht with ht | ht
         all_goals
           first
           | exact ih _ _ _ _ t ht
           | exact absurd ht (List.not_mem_nil t)
           | (try dsimp only
              try simp only [List.length_cons, List.length_nil]
              omega))

theorem flushBuffer_se (buffer : List ChunkDraft)
    (hb : ∀ d ∈ buffer, d.start_line ≤ d.end_line)
    (hb0 : ∀ b0, buffer.head? = some b0 → ∀ d ∈ buffer, b0.start_line ≤ d.start_line) :
    ∀ d ∈ flushBuffer buffer, d.start_line ≤ d.end_line := by
  intro d hd
  cases buffer with
  | nil => cases hd
  | cons b0 bs =>
    cases bs with
    | nil =>
      rw [show flushBuffer [b0] = [b0] from rfl, List.mem_singleton] at hd
      subst hd
      exact hb _ (List.mem_cons_self _ _)
    | cons b1 bs2 =>
      unfold flushBuffer at hd
      rw [List.mem_singleton] at hd
      subst hd
      dsimp only
      have hlast : ((b1 :: bs2).getLast?).getD b1 ∈ b0 :: b1 :: bs2 := by
        rw [List.getLast?_eq_getLast _ (by simp)]
        exact List.mem_cons_of_mem _ (List.getLast_mem _)
      have h1 := hb0 b0 rfl _ hlast
      have h2 := hb _ hlast
      omega

theorem flushBuffer_start (b0 : ChunkDraft) (bs : List ChunkDraft) :
    ∀ x ∈ flushBuffer (b0 :: bs), x.start_line = b0.start_line := by
  intro x hx
  cases bs with
  | nil =>
    rw [show flushBuffer [b0] = [b0] from rfl, List.mem_singleton] at hx
    rw [hx]
  | cons b1 bs2 =>
    unfold flushBuffer at hx
    rw [List.mem_singleton] at hx
    rw [hx]

theorem flushBuffer_pairwise (r : ChunkDraft → ChunkDraft → Prop)
    (buffer : List ChunkDraft) : (flushBuffer buffer).Pairwise r := by
  cases buffer with
  | nil => exact List.Pairwise.nil
  | cons b0 bs =>
    cases bs with
    | nil => simp [flushBuffer]
    | cons b1 bs2 => simp [flushBuffer]

theorem mergeLoop_inv (cb : ChunkBuilder) :
    ∀ (rest buffer : List ChunkDraft),
    (∀ d ∈ buffer, d.start_line ≤ d.end_line) →
    (∀ d ∈ rest, d.start_line ≤ d.end_line) →
    (∀ b0, buffer.head? = some b0 → ∀ d ∈ buffer, b0.start_line ≤ d.start_line) →
    (∀ b0, buffer.head? = some b0 → ∀ d ∈ rest, b0.start_line ≤ d.start_line) →
    rest.Pairwise (fun a b => a.start_line ≤ b.start_line) →
    (∀ d ∈ mergeLoop cb buffer rest, d.start_line ≤ d.end_line) ∧
    (mergeLoop cb buffer rest).Pairwise (fun a b => a.start_line ≤ b.start_line) ∧
    (∀ x ∈ mergeLoop cb buffer rest, ∀ m : Nat,
      (∀ y ∈ buffer, m ≤ y.start_line) → (∀ y ∈ rest, m ≤ y.start_line) →
      m ≤ x.start_line) := by
  intro rest
  induction rest with
  | nil =>
    intro buffer hb hr hb0 hcross hsorted
    refine ⟨fun d hd => flushBuffer_se buffer hb hb0 d hd,
            flushBuffer_pairwise _ buffer, ?_⟩
    intro x hx m hmb hmr
    cases buffer with
    | nil => cases hx
    | cons b0 bs =>
      rw [show mergeLoop cb (b0 :: bs) [] = flushBuffer (b0 :: bs) from rfl] at hx
      rw [flushBuffer_start b0 bs x hx]
      exact hmb b0 (List.mem_cons_self _ _)
  | cons draft rest ih =>
    intro buffer hb hr hb0 hcross hsorted
    have hhead : ∀ y ∈ rest, draft.start_line ≤ y.start_line :=
      (List.pairwise_cons.mp hsorted).1
    have htail : rest.Pairwise (fun a b => a.start_line ≤ b.start_line) :=
      (List.pairwise_cons.mp hsorted).2
    have hrtail : ∀ d ∈ rest, d.start_line ≤ d.end_line :=
      fun d hd => hr d (List.mem_cons_of_mem _ hd)
    have hdse : draft.start_line ≤ draft.end_line := hr draft (List.mem_cons_self _ _)
    simp only [mergeLoop]
    split
    case isTrue htok =>
      have ihr := ih []
        (by intro d hd; cases hd)
        hrtail
        (by intro b0 h0; cases h0)
        (by intro b0 h0; cases h0)
        htail
      refine ⟨?_, ?_, ?_⟩
      · intro d hd
        rw [List.mem_append, List.mem_cons] at hd
        rcases hd with hd | hd | hd
        · exact flushBuffer_se buffer hb hb0 d hd
        · subst hd
          exact hdse
        · exact ihr.1 d hd
      · rw [List.pairwise_append]
        refine ⟨flushBuffer_pairwise _ buffer, ?_, ?_⟩
        · rw [List.pairwise_cons]
          refine ⟨?_, ihr.2.1⟩
          intro y hy
          exact ihr.2.2 y hy draft.start_line (by intro z hz; cases hz) hhead
        · intro x hx y hy
          cases buffer with
          | nil => cases hx
          | cons b0 bs =>
            rw [flushBuffer_start b0 bs x hx]
            rw [List.mem_cons] at hy
            rcases hy with hy | hy
            · subst hy
              exact hcross b0 rfl y (List.mem_cons_self _ _)
            · exact ihr.2.2 y hy b0.start_line (by intro z hz; cases hz)
                (fun z hz => hcross b0 rfl z (List.mem_cons_of_mem _ hz))
      · intro x hx m hmb hmr
        rw [List.mem_append, List.mem_cons] at hx
        rcases hx with hx | hx | hx
        · cases buffer with
          | nil => cases hx
          | cons b0 bs =>
            rw [flushBuffer_start b0 bs x hx]
            exact hmb b0 (List.mem_cons_self _ _)
        · subst hx
          exact hmr _ (List.mem_cons_self _ _)
        · exact ihr.2.2 x hx m (by intro z hz; cases hz)
            (fun z hz => hmr z (List.mem_cons_of_mem _ hz))
    case isFalse htok =>
      cases buffer with
      | nil =>
        dsimp only
        have ihr := ih [draft]
          (by intro d hd; rw [List.mem_singleton] at hd; subst hd; exact hdse)
          hrtail
          (by intro b0 h0 d hd
              rw [List.head?_cons, Option.some.injEq] at h0
              rw [List.mem_singleton] at hd
              subst h0
              subst hd
              exact le_refl _)
          (by intro b0 h0 d hd
              rw [List.head?_cons, Option.some.injEq] at h0
              subst h0
              exact hhead d hd)
          htail
        refine ⟨ihr.1, ihr.2.1, ?_⟩
        intro x hx m hmb hmr
        refine ihr.2.2 x hx m ?_ ?_
        · intro y hy
          rw [List.mem_singleton] at hy
          subst hy
          exact hmr _ (List.mem_cons_self _ _)
        · intro y hy
          exact hmr y (List.mem_cons_of_mem _ hy)
      | cons b0 bs =>
        dsimp only
        split
        case isTrue hfit =>
          have hnew : ∀ d ∈ b0 :: (bs ++ [draft]), d.start_line ≤ d.end_line := by
            intro d hd
            rw [List.mem_cons, List.mem_append, List.mem_singleton] at hd
            rcases hd with hd | hd | hd
            · subst hd
              exact hb _ (List.mem_cons_self _ _)
            · exact hb d (List.mem_cons_of_mem _ hd)
            · subst hd
              exact hdse
          have hnew0 : ∀ c0, (b0 :: (bs ++ [draft])).head? = some c0 →
              ∀ d ∈ b0 :: (bs ++ [draft]), c0.start_line ≤ d.start_line := by
            intro c0 h0 d hd
            rw [List.head?_cons, Option.some.injEq] at h0
            subst h0
            rw [List.mem_cons, List.mem_append, List.mem_singleton] at hd
            rcases hd with hd | hd | hd
            · subst hd
              exact le_refl _
            · exact hb0 b0 rfl d (List.mem_cons_of_mem _ hd)
            · subst hd
              exact hcross _ rfl _ (List.mem_cons_self _ _)
          have hnewcross : ∀ c0, (b0 :: (bs ++ [draft])).head? = some c0 →
              ∀ d ∈ rest, c0.start_line ≤ d.start_line := by
            intro c0 h0 d hd
            rw [List.head?_cons, Option.some.injEq] at h0
            subst h0
            exact hcross b0 rfl d (List.mem_cons_of_mem _ hd)
          have ihr := ih (b0 :: (bs ++ [draft])) hnew hrtail hnew0 hnewcross htail
          refine ⟨ihr.1, ihr.2.1, ?_⟩
          intro x hx m hmb hmr
          refine ihr.2.2 x hx m ?_ ?_
          · intro y hy
            rw [List.mem_cons, List.mem_append, List.mem_singleton] at hy
            rcases hy with hy | hy | hy
            · subst hy
              exact hmb _ (List.mem_cons_self _ _)
            · exact hmb y (List.mem_cons_of_mem _ hy)
            · subst hy
              exact hmr _ (List.mem_cons_self _ _)
          · intro y hy
            exact hmr y (List.mem_cons_of_mem _ hy)
        case isFalse hfit =>
          have ihr := ih [draft]
            (by intro d hd; rw [List.mem_singleton] at hd; subst hd; exact hdse)
            hrtail
            (by intro c0 h0 d hd
                rw [List.head?_cons, Option.some.injEq] at h0
                rw [List.mem_singleton] at hd
                subst h0
                subst hd
                exact le_refl _)
            (by intro c0 h0 d hd
                rw [List.head?_cons, Option.some.injEq] at h0
                subst h0
                exact hhead d hd)
            htail
          refine ⟨?_, ?_, ?_⟩
          · intro d hd
            rw [List.mem_append] at hd
            rcases hd with hd | hd
            · exact flushBuffer_se (b0 :: bs) hb hb0 d hd
            · exact ihr.1 d hd
          · rw [List.pairwise_append]
            refine ⟨flushBuffer_pairwise _ _, ihr.2.1, ?_⟩
            intro x hx y hy
            rw [flushBuffer_start b0 bs x hx]
            refine ihr.2.2 y hy b0.start_line ?_ ?_
            · intro z hz
              rw [List.mem_singleton] at hz
              subst hz
              exact hcross _ rfl _ (List.mem_cons_self _ _)
            · intro z hz
              exact hcross b0 rfl z (List.mem_cons_of_mem _ hz)
          · intro x hx m hmb hmr
            rw [List.mem_append] at hx
            rcases hx with hx | hx
            · rw [flushBuffer_start b0 bs x hx]
              exact hmb b0 (List.mem_cons_self _ _)
            · refine ihr.2.2 x hx m ?_ ?_
              · intro y hy
                rw [List.mem_singleton] at hy
                subst hy
                exact hmr _ (List.mem_cons_self _ _)
              · intro y hy
                exact hmr y (List.mem_cons_of_mem _ hy)

theorem sortDrafts_se (drafts : List ChunkDraft)
    (h : ∀ d ∈ drafts, d.start_line ≤ d.end_line) :
    ∀ d ∈ sortDrafts drafts, d.start_line ≤ d.end_line := by
  intro d hd
  unfold sortDrafts at hd
  exact h d ((List.perm_insertionSort _ _).mem_iff.mp hd)

theorem sortDrafts_pairwise (drafts : List ChunkDraft) :
    (sortDrafts drafts).Pairwise (fun a b => a.start_line ≤ b.start_line) := by
  unfold sortDrafts
  have tot : IsTotal ChunkDraft (fun a b => a.start_line < b.start_line ∨
      (a.start_line = b.start_line ∧ a.end_line ≤ b.end_line)) :=
    ⟨by intro a b; omega⟩
  have trn : IsTrans ChunkDraft (fun a b => a.start_line < b.start_line ∨
      (a.start_line = b.start_line ∧ a.end_line ≤ b.end_line)) :=
    ⟨by intro a b c hab hbc; omega⟩
  have hs := @List.sorted_insertionSort _ _ _ tot trn drafts
  exact hs.imp (fun hab => by omega)

theorem merge_small_se (cb : ChunkBuilder) (drafts : List ChunkDraft)
    (h : ∀ d ∈ drafts, d.start_line ≤ d.end_line) :
    ∀ d ∈ merge_small_drafts cb drafts, d.start_line ≤ d.end_line := by
  intro d hd
  unfold merge_small_drafts at hd
  split at hd
  · cases hd
  · dsimp only at hd
    have hml := mergeLoop_inv cb (sortDrafts drafts) []
      (by intro z hz; cases hz) (sortDrafts_se drafts h)
      (by intro b0 h0; cases h0) (by intro b0 h0; cases h0)
      (sortDrafts_pairwise drafts)
    split at hd
    case h_1 x tailD prevD restRev heqrev =>
      split at hd
      · split at hd
        · rw [List.mem_reverse, List.mem_cons] at hd
          rcases hd with hd | hd
          · subst hd
            dsimp only
            have hmerged : mergeLoop cb [] (sortDrafts drafts) =
                (tailD :: prevD :: restRev).reverse := by
              rw [← heqrev, List.reverse_reverse]
            have hpw := hml.2.1
            rw [hmerged, List.pairwise_reverse] at hpw
            have hpt : prevD.start_line ≤ tailD.start_line :=
              (List.pairwise_cons.mp hpw).1 prevD (List.mem_cons_self _ _)
            have htse : tailD.start_line ≤ tailD.end_line := by
              refine hml.1 tailD ?_
              rw [← List.mem_reverse, heqrev]
              exact List.mem_cons_self _ _
            omega
          · refine hml.1 d ?_
            rw [← List.mem_reverse, heqrev]
            exact List.mem_cons_of_mem _ (List.mem_cons_of_mem _ hd)
        · exact hml.1 d hd
      · exact hml.1 d hd
    case h_2 =>
      exact hml.1 d hd

theorem slice_file_fallback_se (cb : ChunkBuilder) (lines : List String) :
    ∀ d ∈ slice_file_fallback cb lines, d.start_line ≤ d.end_line := by
  intro d hd
  unfold slice_file_fallback at hd
  split at hd
  · cases hd
  · rename_i hne
    dsimp only at hd
    split at hd
    · rw [List.mem_singleton] at hd
      subst hd
      dsimp only
      have hlen : 0 < lines.length := by
        cases lines with
        | nil => simp at hne
        | cons a as => exact Nat.succ_pos _
      omega
    · rw [List.mem_map] at hd
      rcases hd with ⟨t, htm, hEq⟩
      rw [← hEq]
      dsimp only
      unfold split_text_by_lines at htm
      exact splitLinesLoop_se cb 1 _ _ _ _ _ t htm

theorem initial_drafts_se (cb : ChunkBuilder) (content : String)
    (symbols : List SymbolBlock) :
    ∀ d ∈ initial_drafts cb content symbols, d.start_line ≤ d.end_line := by
  intro d hd
  unfold initial_drafts at hd
  dsimp only at hd
  split at hd
  · exact slice_file_fallback_se cb _ d hd
  · split at hd
    · exact slice_file_fallback_se cb _ d hd
    · rw [List.mem_filterMap] at hd
      rcases hd with ⟨sym, hsym, hsome⟩
      try dsimp only at hsome
      split at hsome
      · cases hsome
      · rw [Option.some.injEq] at hsome
        rw [← hsome]
        dsimp only
        exact Nat.le_max_right _ _

theorem split_large_se (cb : ChunkBuilder) (drafts : List ChunkDraft)
    (h : ∀ d ∈ drafts, d.start_line ≤ d.end_line) :
    ∀ d ∈ split_large_drafts cb drafts, d.start_line ≤ d.end_line := by
  intro d hd
  unfold split_large_drafts at hd
  rw [List.mem_flatMap] at hd
  rcases hd with ⟨d0, hd0, hmem⟩
  split at hmem
  · rw [List.mem_singleton] at hmem
    subst hmem
    exact h _ hd0
  · rw [List.mem_map] at hmem
    rcases hmem with ⟨t, htm, hEq⟩
    rw [← hEq]
    dsimp only
    unfold split_text_by_lines at htm
    exact splitLinesLoop_se cb d0.start_line _ _ _ _ _ t htm

/-- C7: every chunk emitted by ChunkBuilder.build_chunks has
start_line ≤ end_line, carries the given relative path as file_path,
and its chunk_id is the sha256 hex digest of
"file_path|start_line|end_line|text". -/
theorem C7_chunk_invariants :
    ∀ (cb : ChunkBuilder) (repo rel lang fh content : String)
      (symbols : List SymbolBlock),
    ((build_chunks cb repo rel lang fh content symbols).all (fun c =>
      decide (c.start_line ≤ c.end_line) &&
      decide (c.chunk_id = sha256_hex (c.file_path ++ "|" ++ toString c.start_line ++ "|" ++
        toString c.end_line ++ "|" ++ c.text)) &&
      decide (c.file_path = rel))) = true := by
  intro cb repo rel lang fh content symbols
  rw [List.all_eq_true]
  intro c hc
  unfold build_chunks at hc
  dsimp only at hc
  rw [List.mem_map] at hc
  rcases hc with ⟨draft, hdraft, hEq⟩
  have hse : draft.start_line ≤ draft.end_line :=
    merge_small_se cb _
      (split_large_se cb _ (initial_drafts_se cb content symbols)) draft hdraft
  rw [← hEq]
  dsimp only
  simp [hse]
